import Mathlib

/-!
TCP reassembly (`src/util-tcpreasm.c`): shallow embedding and verified properties

The C code is embedded as pure Lean functions.

* `unsigned` values are natural numbers reduced modulo `2^32` wherever the C
  arithmetic can wrap (`add32`, `sub32`); `size_t` is taken to be 64 bits wide
  (`sub64`).
* A heap block is the list of its bytes, its capacity being the length of the
  list.  `memcpy`/`memmove` outside a block, a failed `assert`, and the use of a
  freed stream are faults: every function that can hit one returns
  `Except Fault _`.
* The singly linked fragment chain of a stream is a `List fragment`, the `next`
  link being the list order.
* `malloc`, `calloc` and `realloc` are taken to succeed; the out-of-memory
  branches of the source are outside this development.
-/

namespace TcpReasm

/-! ## Faults and memory primitives -/

/-- Ways in which the C program leaves defined behaviour or stops. -/
inductive Fault where
  | assert_failed
  | out_of_bounds
  | use_after_free
  | null_deref
deriving DecidableEq, Repr

/-- Addition of two `unsigned` values (32 bits, wrapping). -/
def add32 (a b : Nat) : Nat := (a + b) % 4294967296

/-- Subtraction of two `unsigned` values (32 bits, wrapping). -/
def sub32 (a b : Nat) : Nat := (a % 4294967296 + (4294967296 - b % 4294967296)) % 4294967296

/-- Subtraction of two `size_t` values (64 bits, wrapping). -/
def sub64 (a b : Nat) : Nat :=
  (a % 18446744073709551616 + (18446744073709551616 - b % 18446744073709551616))
    % 18446744073709551616

/-- The call `realloc(p, n)` on a block with contents `mem`: the first
`min n mem.length` bytes are kept; bytes past the old capacity are
indeterminate in C and are zero here. -/
def realloc (mem : List Nat) (n : Nat) : List Nat :=
  mem.take n ++ List.replicate (n - mem.length) 0

/-- The call `memcpy(dst + off, src, n)`: `dst` is the whole destination block and
`src` the bytes readable from the source pointer.  Writing past the block or
reading past the source is a fault. -/
def memcpy (dst : List Nat) (off : Nat) (src : List Nat) (n : Nat) : Except Fault (List Nat) :=
  if off + n ≤ dst.length ∧ n ≤ src.length then
    .ok (dst.take off ++ src.take n ++ dst.drop (off + n))
  else
    .error Fault.out_of_bounds

/-- The call `memmove(blk + dstOff, blk + srcOff, n)` inside one block (the source
bytes are read before any byte is written). -/
def memmove (blk : List Nat) (dstOff srcOff n : Nat) : Except Fault (List Nat) :=
  memcpy blk dstOff (blk.drop srcOff) n

/-! ## Sequence arithmetic (source lines 51-79) -/

/-- Source: `SEQNO_LTE`, `seqnoB - seqnoA < 0x80000000`. -/
def SEQNO_LTE (seqnoA seqnoB : Nat) : Bool := decide (sub32 seqnoB seqnoA < 2147483648)

/-- Source: `SEQNO_GT`, the negation of `SEQNO_LTE`. -/
def SEQNO_GT (seqnoA seqnoB : Nat) : Bool := !SEQNO_LTE seqnoA seqnoB

/-- Source: `SEQNO_GTE`, `seqnoA - seqnoB < 0x80000000`. -/
def SEQNO_GTE (seqnoA seqnoB : Nat) : Bool := decide (sub32 seqnoA seqnoB < 2147483648)

/-- Source: `SEQNO_LT`, the negation of `SEQNO_GTE`. -/
def SEQNO_LT (seqnoA seqnoB : Nat) : Bool := !SEQNO_GTE seqnoA seqnoB

/-- Source: `IS_BETWEEN`. -/
def IS_BETWEEN (seqno b e : Nat) : Bool := SEQNO_GTE seqno b && SEQNO_LTE seqno e

/-! ## Fragments (source lines 33-38, 81-215) -/

/-- Source: `struct fragment`; `buf` is the whole allocated block (its capacity
may exceed `length`), the `next` pointer is the position in the list. -/
structure fragment where
  seqno : Nat
  length : Nat
  buf : List Nat
deriving DecidableEq, Repr

/-- The bytes a fragment holds: the first `length` bytes of its block. -/
def fragment.bytes (f : fragment) : List Nat := f.buf.take f.length

/-- The condition of the `assert` that opens `_frag_merge`. -/
def frag_merge_assert (frag : fragment) (seqno length : Nat) : Bool :=
  IS_BETWEEN seqno frag.seqno (add32 frag.seqno frag.length)
    || IS_BETWEEN (add32 seqno length) frag.seqno (add32 frag.seqno frag.length)

/-- Source: `_frag_merge`.  The result is the fragment `*frag` after the call;
its `next` link is never written, so the tail of the list stays as it is. -/
def _frag_merge (frag : fragment) (seqno : Nat) (buf : List Nat) (length : Nat) :
    Except Fault fragment :=
  if frag_merge_assert frag seqno length = false then
    .error Fault.assert_failed
  else if SEQNO_LT frag.seqno seqno then
    let overlap := sub32 (add32 frag.seqno frag.length) seqno
    if overlap ≥ length then
      .ok frag
    else
      let diff := sub32 length overlap
      match memcpy (realloc frag.buf (frag.length + diff)) frag.length (buf.drop overlap) diff with
      | .error e => .error e
      | .ok mem => .ok { seqno := frag.seqno, length := add32 frag.length diff, buf := mem }
  else
    let overlap := sub32 (add32 seqno length) frag.seqno
    if overlap ≥ frag.length then
      match memcpy (realloc frag.buf length) 0 buf length with
      | .error e => .error e
      | .ok mem => .ok { seqno := seqno, length := length, buf := mem }
    else
      let diff := sub32 frag.length overlap
      match memmove (realloc frag.buf (frag.length + diff)) length overlap diff with
      | .error e => .error e
      | .ok mem1 =>
        match memcpy mem1 0 buf length with
        | .error e => .error e
        | .ok mem2 => .ok { seqno := seqno, length := add32 length diff, buf := mem2 }

/-- Source: `_fragment_new` (the `next` argument is the list tail the caller
conses the result onto). -/
def _fragment_new (seqno : Nat) (buf : List Nat) (length : Nat) : Except Fault fragment :=
  match memcpy (List.replicate length 0) 0 buf length with
  | .error e => .error e
  | .ok mem => .ok { seqno := seqno, length := length, buf := mem }

/-- Source: `_frag_is_overlap`. -/
def _frag_is_overlap (frag : fragment) (seqno length : Nat) : Bool :=
  if SEQNO_LT (add32 (add32 seqno length) 1) frag.seqno then false
  else if SEQNO_GT seqno (add32 (add32 frag.seqno frag.length) 1) then false
  else true

/-- Source: `_frag_is_after`. -/
def _frag_is_after (frag : fragment) (seqno length : Nat) : Bool :=
  SEQNO_GT frag.seqno (add32 (add32 seqno length) 1)

/-! ## Streams and `tcp_append` (source lines 24-48, 216-263) -/

/-- Source: `struct tcpreasm_connkey_t`; the two addresses are the 16-byte arrays. -/
structure tcpreasm_connkey_t where
  ip_proto : Nat
  ip_version : Nat
  src_port : Nat
  dst_port : Nat
  src_ip : List Nat
  dst_ip : List Nat
deriving DecidableEq, Repr

/-- Source: `struct tcpreasm_stream_t`.  The embedded `struct TimeoutEntry` lives
in the timeout queue of the context (see `tcpreasm_ctx_t.timeouts`). -/
structure tcpreasm_stream_t where
  conn : tcpreasm_connkey_t
  seqno : Nat
  is_payload_seen : Bool
  fragments : List fragment
  userdata : List Nat
deriving DecidableEq, Repr

/-- The `for` loop of `tcp_append` (source lines 235-247), started at the link
that holds the list `frags`; `length` is the loop's mutable copy of the
argument, set to zero once a merge has happened.  The result is the list
hanging off that link when the loop and the final `_fragment_new` are done. -/
def tcp_append_loop (seqno : Nat) (buf : List Nat) :
    Nat → List fragment → Except Fault (List fragment)
  | length, [] =>
    if length ≠ 0 then
      match _fragment_new seqno buf length with
      | .error e => .error e
      | .ok nf => .ok [nf]
    else .ok []
  | length, frag :: next =>
    if _frag_is_overlap frag seqno length then
      match _frag_merge frag seqno buf length with
      | .error e => .error e
      | .ok merged =>
        match tcp_append_loop seqno buf 0 next with
        | .error e => .error e
        | .ok rest => .ok (merged :: rest)
    else if _frag_is_after frag seqno length then
      if length ≠ 0 then
        match _fragment_new seqno buf length with
        | .error e => .error e
        | .ok nf => .ok (nf :: frag :: next)
      else .ok (frag :: next)
    else
      match tcp_append_loop seqno buf length next with
      | .error e => .error e
      | .ok rest => .ok (frag :: rest)

/-- The value `tcp_append` returns at its `end:` label (source lines 252-262). -/
def tcp_append_end (stream : tcpreasm_stream_t) : Nat :=
  match stream.fragments with
  | [] => 0
  | frag :: _ => if frag.seqno = stream.seqno then frag.length else 0

/-- Source: `tcp_append`.  Returns the stream after the call and the returned
count of available bytes. -/
def tcp_append (stream : tcpreasm_stream_t) (seqno : Nat) (buf : List Nat) (length : Nat) :
    Except Fault (tcpreasm_stream_t × Nat) :=
  if length = 0 then
    .ok (stream, tcp_append_end stream)
  else
    let stream1 : tcpreasm_stream_t :=
      if stream.is_payload_seen = false then
        { stream with seqno := seqno, is_payload_seen := true }
      else stream
    let frags : Except Fault (List fragment) :=
      match stream1.fragments with
      | [] =>
        match _fragment_new seqno buf length with
        | .error e => .error e
        | .ok nf => .ok [nf]
      | frag :: next => tcp_append_loop seqno buf length (frag :: next)
    match frags with
    | .error e => .error e
    | .ok fs =>
      let stream2 : tcpreasm_stream_t := { stream1 with fragments := fs }
      .ok (stream2, tcp_append_end stream2)

/-- The part of `tcpreasm_read` after the stream lookup (source lines 478-504):
the stream after the call, the bytes copied to the caller's buffer, and the
returned count.  `length` is a `size_t`. -/
def tcpreasm_read_stream (stream : tcpreasm_stream_t) (length : Nat) :
    Except Fault (tcpreasm_stream_t × List Nat × Nat) :=
  match stream.fragments with
  | [] => .ok (stream, [], 0)
  | frag :: next =>
    if frag.seqno ≠ stream.seqno then
      .ok (stream, [], 0)
    else
      let length := if length > frag.length then frag.length else length
      if length > frag.buf.length then
        .error Fault.out_of_bounds
      else
        let out := frag.buf.take length
        if length ≥ frag.length then
          .ok ({ stream with fragments := next, seqno := add32 stream.seqno length }, out, length)
        else
          let newlen := sub32 frag.length length
          match memmove frag.buf 0 length (sub64 newlen length) with
          | .error e => .error e
          | .ok mem =>
            .ok ({ stream with
                    fragments :=
                      { seqno := add32 frag.seqno length, length := newlen, buf := mem } :: next,
                    seqno := add32 stream.seqno length }, out, length)

/-! ## Connection table, stream life cycle and the packet entry point
(source lines 17-22, 266-465) -/

/-- Modelled from the spec: the hash index of `util-hashmap` (not among the
sources), "a hash index mapping Connection Key to Stream" whose equality is
exact comparison of the key; it is an association list here. -/
abbrev Hashmap := List (tcpreasm_connkey_t × tcpreasm_stream_t)

/-- Modelled from the spec: `hashmapGet`, the `lookup` operation of the hash
index. -/
def hashmapGet : Hashmap → tcpreasm_connkey_t → Option tcpreasm_stream_t
  | [], _ => none
  | (k, s) :: rest, key => if k = key then some s else hashmapGet rest key

/-- Modelled from the spec: `hashmapRemove`, the `remove` operation of the hash
index. -/
def hashmapRemove (t : Hashmap) (key : tcpreasm_connkey_t) : Hashmap :=
  t.filter (fun e => decide (e.1 ≠ key))

/-- Modelled from the spec: `hashmapPut`, the `insert` operation of the hash
index (callers never insert a key that is present). -/
def hashmapPut (t : Hashmap) (key : tcpreasm_connkey_t) (s : tcpreasm_stream_t) : Hashmap :=
  (key, s) :: hashmapRemove t key

/-- Writes made through a stream pointer obtained from the table: the entry of
`key` is replaced by the updated stream. -/
def conntable_store : Hashmap → tcpreasm_connkey_t → tcpreasm_stream_t → Hashmap
  | [], _, _ => []
  | (k, s0) :: rest, key, s =>
    if k = key then (k, s) :: conntable_store rest key s
    else (k, s0) :: conntable_store rest key s

/-- Source: `struct tcpreasm_ctx_t`.  `cleanup_userdata` says whether a hook is
configured and `cleaned` records the user-data blocks the hook was called on.
Modelled from the spec: the timeout queue of `util-timeout` (not among the
sources) is the list of the registered streams with their deadlines. -/
structure tcpreasm_ctx_t where
  conntable : Hashmap
  sizeof_userdata : Nat
  cleanup_userdata : Bool
  timeouts : List (tcpreasm_connkey_t × Nat × Nat)
  cleaned : List (List Nat)
deriving DecidableEq, Repr

/-- Source: `struct tcpreasm_handle_t`.  `conn` is `none` for the zeroed result;
the `ctx` and `userdata` pointers of the source are set exactly when `conn` is. -/
structure tcpreasm_handle_t where
  conn : Option tcpreasm_connkey_t
  available : Nat
deriving DecidableEq, Repr

/-- Source: `_stream_new`: a zeroed stream for `conn`, registered in the timeout
queue and put into the table. -/
def _stream_new (ctx : tcpreasm_ctx_t) (conn : tcpreasm_connkey_t) (secs usecs : Nat) :
    tcpreasm_ctx_t × tcpreasm_stream_t :=
  let stream : tcpreasm_stream_t :=
    { conn := conn, seqno := 0, is_payload_seen := false, fragments := [],
      userdata := List.replicate ctx.sizeof_userdata 0 }
  ({ ctx with
      timeouts := (conn, secs + 100, usecs) :: ctx.timeouts,
      conntable := hashmapPut ctx.conntable conn stream }, stream)

/-- Source: `_stream_delete`: the stream of the key leaves the table and the
timeout queue, its fragments are freed and the hook, when configured, is called
on its user data. -/
def _stream_delete (ctx : tcpreasm_ctx_t) (in_stream : tcpreasm_stream_t) :
    Except Fault tcpreasm_ctx_t :=
  match hashmapGet ctx.conntable in_stream.conn with
  | none => .error Fault.assert_failed
  | some stream =>
    .ok { ctx with
          conntable := hashmapRemove ctx.conntable in_stream.conn,
          timeouts := ctx.timeouts.filter (fun e => decide (e.1 ≠ in_stream.conn)),
          cleaned := if ctx.cleanup_userdata then stream.userdata :: ctx.cleaned
                     else ctx.cleaned }

/-- The byte `buf[i]` of a packet. -/
def byte_at (buf : List Nat) (i : Nat) : Nat := buf.getD i 0

/-- The extension-header loop of the IPv6 case (source lines 391-406): from the
current protocol and offset to the protocol and offset at loop exit, `none`
being `goto fail`.  Every round moves `offset` forward by at least 8 and needs
`offset + 8 ≤ length`, so `length` rounds of fuel are never used up. -/
def ipv6_ext_loop (buf : List Nat) (length : Nat) : Nat → Nat → Nat → Option (Nat × Nat)
  | 0, _, _ => none
  | fuel + 1, ip_proto, offset =>
    if ip_proto = 6 then some (ip_proto, offset)
    else if ip_proto = 1 then none
    else if ip_proto = 17 then none
    else if ip_proto = 132 then none
    else if offset + 8 > length then none
    else
      let ext_len := byte_at buf (offset + 1)
      if 8 + ext_len > length then none
      else ipv6_ext_loop buf length fuel (byte_at buf offset) (offset + 8 + ext_len)

/-- What the header decoding of `tcpreasm_insert_packet` hands to the stream
logic: the key, the sequence number, the flag byte and the payload offset. -/
structure tcp_segment where
  conn : tcpreasm_connkey_t
  seqno : Nat
  tcp_flags : Nat
  offset : Nat
deriving DecidableEq, Repr

/-- The TCP part of the decoding (source lines 410-422), from the offset of the
TCP header. -/
def decode_tcp (buf : List Nat) (ip_version ip_proto : Nat) (src_ip dst_ip : List Nat)
    (offset : Nat) : Option tcp_segment :=
  let length := buf.length
  if offset + 20 > length then none
  else
    let hdrlen := (byte_at buf (offset + 12) >>> 4) * 4
    if offset + hdrlen > length then none
    else
      some
        { conn :=
            { ip_proto := ip_proto, ip_version := ip_version,
              src_port := (byte_at buf (offset + 0) <<< 8) ||| byte_at buf (offset + 1),
              dst_port := (byte_at buf (offset + 2) <<< 8) ||| byte_at buf (offset + 3),
              src_ip := src_ip, dst_ip := dst_ip },
          seqno := (byte_at buf (offset + 4) <<< 24) ||| (byte_at buf (offset + 5) <<< 16)
                    ||| (byte_at buf (offset + 6) <<< 8) ||| byte_at buf (offset + 7),
          tcp_flags := byte_at buf (offset + 13),
          offset := offset + hdrlen }

/-- The header decoding of `tcpreasm_insert_packet` (source lines 362-422); the
packet is the list `buf` and `length` is its length; `none` is `goto fail`. -/
def decode_headers (buf : List Nat) : Option tcp_segment :=
  let length := buf.length
  if length < 1 then none
  else
    let ip_version := byte_at buf 0 >>> 4
    if ip_version = 4 then
      if length < 20 then none
      else
        let hdrlen := (byte_at buf 0 &&& 15) * 4
        if length < hdrlen then none
        else
          decode_tcp buf ip_version (byte_at buf 9)
            ((buf.drop 12).take 4 ++ List.replicate 12 0)
            ((buf.drop 16).take 4 ++ List.replicate 12 0) hdrlen
    else if ip_version = 6 then
      if length < 40 then none
      else
        match ipv6_ext_loop buf length length (byte_at buf 6) 40 with
        | none => none
        | some (ip_proto, offset) =>
          decode_tcp buf ip_version ip_proto ((buf.drop 8).take 16) ((buf.drop 24).take 16) offset
    else none

/-- The flag bits `FIN`, `SYN` and `RST` of `tcpreasm_insert_packet`. -/
def FIN : Nat := 1

/-- See `FIN`. -/
def SYN : Nat := 2

/-- See `FIN`. -/
def RST : Nat := 4

/-- The tail of `tcpreasm_insert_packet` (source lines 455-460) on a live stream:
append the payload and fill in the result. -/
def insert_append (ctx : tcpreasm_ctx_t) (stream : tcpreasm_stream_t) (seqno : Nat)
    (payload : List Nat) : Except Fault (tcpreasm_ctx_t × tcpreasm_handle_t) :=
  match tcp_append stream seqno payload (payload.length % 4294967296) with
  | .error e => .error e
  | .ok (stream1, available) =>
    .ok ({ ctx with conntable := conntable_store ctx.conntable stream.conn stream1 },
         { conn := some stream.conn, available := available })

/-- Source: `tcpreasm_insert_packet`.  After `_stream_delete` the source falls
through to `tcp_append` on the stream it has just freed: a use after free. -/
def tcpreasm_insert_packet (ctx : tcpreasm_ctx_t) (buf : List Nat) (secs usecs : Nat) :
    Except Fault (tcpreasm_ctx_t × tcpreasm_handle_t) :=
  match decode_headers buf with
  | none => .ok (ctx, { conn := none, available := 0 })
  | some seg =>
    match hashmapGet ctx.conntable seg.conn with
    | none =>
      if seg.tcp_flags &&& SYN = 0 then
        .ok (ctx, { conn := none, available := 0 })
      else
        let (ctx1, stream) := _stream_new ctx seg.conn secs usecs
        let stream1 : tcpreasm_stream_t := { stream with seqno := add32 seg.seqno 1 }
        insert_append { ctx1 with conntable := conntable_store ctx1.conntable seg.conn stream1 }
          stream1 seg.seqno (buf.drop seg.offset)
    | some stream =>
      if seg.tcp_flags &&& RST ≠ 0 then
        match _stream_delete ctx stream with
        | .error e => .error e
        | .ok _ => .error Fault.use_after_free
      else if seg.tcp_flags &&& FIN ≠ 0 then
        if stream.fragments = [] then
          match _stream_delete ctx stream with
          | .error e => .error e
          | .ok _ => .error Fault.use_after_free
        else insert_append ctx stream seg.seqno (buf.drop seg.offset)
      else insert_append ctx stream seg.seqno (buf.drop seg.offset)

/-- Source: `tcpreasm_read`: the context after the call, the bytes copied to the
caller's buffer and the returned count.  A zeroed handle has no context to
look the stream up in. -/
def tcpreasm_read (ctx : tcpreasm_ctx_t) (handle : tcpreasm_handle_t) (length : Nat) :
    Except Fault (tcpreasm_ctx_t × List Nat × Nat) :=
  match handle.conn with
  | none => .error Fault.null_deref
  | some key =>
    match hashmapGet ctx.conntable key with
    | none => .ok (ctx, [], 0)
    | some stream =>
      match tcpreasm_read_stream stream length with
      | .error e => .error e
      | .ok (stream1, out, count) =>
        .ok ({ ctx with conntable := conntable_store ctx.conntable key stream1 }, out, count)


/-! ## Scenario drivers -/

/-- The caller of the in-order scenario: the chunks are appended one after the
other, each at the sequence number right behind the previous one; the second
component is the value the last `tcp_append` returned. -/
def append_in_order :
    tcpreasm_stream_t × Nat → Nat → List (List Nat) → Except Fault (tcpreasm_stream_t × Nat)
  | acc, _, [] => .ok acc
  | acc, seqno, c :: cs =>
    match tcp_append acc.1 seqno c c.length with
    | .error e => .error e
    | .ok r => append_in_order r (add32 seqno c.length) cs

/-! ## The invariant of the fragment list -/

/-- The target invariant of a fragment list as the spec words it: sorted by
starting sequence number and non-overlapping, each fragment's end preceding or
touching the next fragment's start, in wraparound order. -/
def frags_sorted_disjoint : List fragment → Bool
  | f :: g :: rest =>
    SEQNO_LT f.seqno g.seqno && SEQNO_LTE (add32 f.seqno f.length) g.seqno
      && frags_sorted_disjoint (g :: rest)
  | _ => true

/-! ## Packet classes -/

/-- A TCP header that does not fit behind `offset`: neither the fixed 20 bytes
nor the declared data offset times 4 may pass the end of the packet. -/
def tcp_header_misfit (buf : List Nat) (offset : Nat) : Prop :=
  offset + 20 > buf.length ∨ offset + (byte_at buf (offset + 12) >>> 4) * 4 > buf.length

/-- The extension-header walk of an IPv6 packet as the spec words it: each
header is its next-protocol byte, its length byte and, in all, 8 bytes plus 8
times the length byte; the walk ends at the TCP protocol number and fails at
ICMP, UDP or SCTP or past the end of the packet.  The result is the protocol
and the offset the walk ends at, which is where the TCP header starts. -/
def ipv6_ext_walk_spec (buf : List Nat) (length : Nat) : Nat → Nat → Nat → Option (Nat × Nat)
  | 0, _, _ => none
  | fuel + 1, ip_proto, offset =>
    if ip_proto = 6 then some (ip_proto, offset)
    else if ip_proto = 1 then none
    else if ip_proto = 17 then none
    else if ip_proto = 132 then none
    else if offset + 8 > length then none
    else
      let ext_len := byte_at buf (offset + 1)
      if offset + 8 + 8 * ext_len > length then none
      else ipv6_ext_walk_spec buf length fuel (byte_at buf offset) (offset + 8 + 8 * ext_len)

/-- The malformed packets: empty; version nibble neither 4 nor 6; IPv4 shorter
than 20 bytes or with a header-length field times 4 past the end; IPv6 shorter
than 40 bytes; or a TCP header that does not fit in what remains behind the IP
header (for IPv6, behind its extension headers, where `ipv6_ext_walk_spec`
finds the TCP header). -/
def malformed_packet (buf : List Nat) : Prop :=
  buf.length < 1 ∨
  (byte_at buf 0 >>> 4 ≠ 4 ∧ byte_at buf 0 >>> 4 ≠ 6) ∨
  (byte_at buf 0 >>> 4 = 4 ∧ (buf.length < 20 ∨ buf.length < (byte_at buf 0 &&& 15) * 4)) ∨
  (byte_at buf 0 >>> 4 = 6 ∧ buf.length < 40) ∨
  (byte_at buf 0 >>> 4 = 4 ∧ tcp_header_misfit buf ((byte_at buf 0 &&& 15) * 4)) ∨
  (byte_at buf 0 >>> 4 = 6 ∧
    ∃ p off, ipv6_ext_walk_spec buf buf.length buf.length (byte_at buf 6) 40 = some (p, off) ∧
      tcp_header_misfit buf off)

/-! ## The overlap test as the claims word it -/

/-- The ranges `[s, s+n)` and `[f, f+L)`, taken as plain intervals of numbers
(no wraparound), share at least one sequence number or are exactly adjacent
(`s + n = f` or `f + L = s`). -/
def overlap_or_adjacent (f L s n : Nat) : Bool :=
  decide ((s < f + L ∧ f < s + n) ∨ s + n = f ∨ f + L = s)

/-! ## Sorted lists and the insert position as the claims word them -/

/-- The fragment list is sorted by starting sequence number, in wraparound
order: every fragment starts before all the fragments behind it. -/
def frags_sorted_by_start (fs : List fragment) : Prop :=
  fs.Pairwise (fun a b => SEQNO_LT a.seqno b.seqno = true)

/-- The fragment starts after the end of the incoming range, in wraparound
order. -/
def starts_after_range (f : fragment) (seqno length : Nat) : Bool :=
  SEQNO_GT f.seqno (add32 seqno length)

/-! ## Helper lemmas -/

theorem add32_add32 (a b c : Nat) : add32 (add32 a b) c = add32 a (b + c) := by
  simp only [add32]; omega

theorem fragment_new_ok (seqno : Nat) (buf : List Nat) :
    _fragment_new seqno buf buf.length = .ok { seqno := seqno, length := buf.length, buf := buf } := by
  simp [_fragment_new, memcpy]

/-- Appending right behind a fragment grows it on the right. -/
theorem frag_merge_adjacent_right (n : Nat) (acc c : List Nat)
    (hacc : 1 ≤ acc.length) (hc : 1 ≤ c.length) (hT : acc.length + c.length + 1 < 2147483648) :
    _frag_is_overlap ⟨n, acc.length, acc⟩ (add32 n acc.length) c.length = true ∧
    _frag_merge ⟨n, acc.length, acc⟩ (add32 n acc.length) c c.length
      = .ok ⟨n, acc.length + c.length, acc ++ c⟩ := by
  constructor
  · simp only [_frag_is_overlap, SEQNO_LT, SEQNO_GT, SEQNO_GTE, SEQNO_LTE, add32, sub32]
    simp only [Bool.not_eq_true', decide_eq_false_iff_not, decide_eq_true_eq]
    split_ifs <;> first | rfl | omega
  · have h1 : frag_merge_assert ⟨n, acc.length, acc⟩ (add32 n acc.length) c.length = true := by
      simp only [frag_merge_assert, IS_BETWEEN, SEQNO_GTE, SEQNO_LTE, add32, sub32,
        Bool.or_eq_true, Bool.and_eq_true, decide_eq_true_eq]
      left; omega
    have h2 : SEQNO_LT n (add32 n acc.length) = true := by
      simp only [SEQNO_LT, SEQNO_GTE, add32, sub32, Bool.not_eq_true', decide_eq_false_iff_not]
      omega
    have h3 : sub32 (add32 n acc.length) (add32 n acc.length) = 0 := by
      simp only [add32, sub32]; omega
    have h4 : sub32 c.length 0 = c.length := by
      simp only [sub32]; omega
    have h5 : add32 acc.length c.length = acc.length + c.length := by
      simp only [add32]; omega
    have h6 : ¬ (c.length = 0) := by omega
    have h7 : List.take (acc.length + c.length) acc = acc := List.take_of_length_le (by omega)
    have h8 : List.drop (acc.length + c.length) (acc ++ List.replicate c.length 0) = [] :=
      List.drop_of_length_le (by simp)
    simp [_frag_merge, h1, h2, h3, h4, h5, h6, memcpy, realloc, h7, h8]
theorem tcp_append_end_head (st : tcpreasm_stream_t) (f : fragment) (rest : List fragment)
    (h : st.fragments = f :: rest) (hs : f.seqno = st.seqno) : tcp_append_end st = f.length := by
  simp [tcp_append_end, h, hs]

/-- One in-order step: the stream holds the single fragment `acc` at `n`, which
is the expected sequence number, and `c` arrives right behind it. -/
theorem tcp_append_in_order_step (st : tcpreasm_stream_t) (n : Nat) (acc c : List Nat)
    (hseen : st.is_payload_seen = true) (hseq : st.seqno = n)
    (hfr : st.fragments = [⟨n, acc.length, acc⟩])
    (hacc : 1 ≤ acc.length) (hc : 1 ≤ c.length) (hT : acc.length + c.length + 1 < 2147483648) :
    tcp_append st (add32 n acc.length) c c.length
      = .ok ({ st with fragments := [⟨n, acc.length + c.length, acc ++ c⟩] },
             acc.length + c.length) := by
  obtain ⟨ho, hm⟩ := frag_merge_adjacent_right n acc c hacc hc hT
  have h6 : ¬ (c.length = 0) := by omega
  simp [tcp_append, h6, hseen, hfr, tcp_append_loop, ho, hm, tcp_append_end, hseq]

/-- The first in-order step on a stream that has seen no payload. -/
theorem tcp_append_first (st : tcpreasm_stream_t) (n : Nat) (c : List Nat)
    (hseen : st.is_payload_seen = false) (hfr : st.fragments = []) (hc : 1 ≤ c.length) :
    tcp_append st n c c.length
      = .ok ({ st with seqno := n, is_payload_seen := true, fragments := [⟨n, c.length, c⟩] },
             c.length) := by
  have h6 : ¬ (c.length = 0) := by omega
  simp [tcp_append, h6, hseen, hfr, fragment_new_ok, tcp_append_end]

theorem append_in_order_rest (n : Nat) (cs : List (List Nat)) :
    ∀ (st : tcpreasm_stream_t) (acc : List Nat),
      st.is_payload_seen = true → st.seqno = n → st.fragments = [⟨n, acc.length, acc⟩] →
      1 ≤ acc.length → (∀ c ∈ cs, c ≠ []) →
      acc.length + cs.flatten.length + 1 < 2147483648 →
      append_in_order (st, acc.length) (add32 n acc.length) cs
        = .ok ({ st with fragments :=
                  [⟨n, (acc ++ cs.flatten).length, acc ++ cs.flatten⟩] },
               (acc ++ cs.flatten).length) := by
  induction cs with
  | nil =>
    intro st acc _ _ hfr _ _ _
    simp [append_in_order, ← hfr]
  | cons c cs ih =>
    intro st acc hseen hseq hfr hacc hne hT
    have hc : 1 ≤ c.length := by
      have := hne c (by simp)
      exact List.length_pos.mpr this
    have hlen : (c :: cs).flatten.length = c.length + cs.flatten.length := by simp
    rw [hlen] at hT
    have hstep := tcp_append_in_order_step st n acc c hseen hseq hfr hacc hc (by omega)
    simp only [append_in_order, hstep]
    have := ih { st with fragments := [⟨n, acc.length + c.length, acc ++ c⟩] } (acc ++ c)
      hseen hseq (by simp) (by rw [List.length_append]; omega)
      (fun d hd => hne d (by simp [hd])) (by rw [List.length_append]; omega)
    simp only [List.length_append, add32_add32] at this ⊢
    simp only [this, List.flatten_cons, List.append_assoc, List.length_append, Nat.add_assoc]
theorem hashmapGet_conntable_store (t : Hashmap) (key : tcpreasm_connkey_t)
    (s s1 : tcpreasm_stream_t) (h : hashmapGet t key = some s) :
    hashmapGet (conntable_store t key s1) key = some s1 := by
  induction t with
  | nil => simp [hashmapGet] at h
  | cons e rest ih =>
    obtain ⟨k, v⟩ := e
    by_cases hk : k = key
    · simp [conntable_store, hashmapGet, hk]
    · simp only [hashmapGet, if_neg hk] at h
      simp only [conntable_store, if_neg hk, hashmapGet]
      exact ih h

/-- Reading through a handle is reading the stream the table holds for its key. -/
theorem tcpreasm_read_of_stream (ctx : tcpreasm_ctx_t) (key : tcpreasm_connkey_t)
    (avail length : Nat) (st st1 : tcpreasm_stream_t) (out : List Nat) (count : Nat)
    (hget : hashmapGet ctx.conntable key = some st)
    (hrd : tcpreasm_read_stream st length = .ok (st1, out, count)) :
    tcpreasm_read ctx ⟨some key, avail⟩ length
      = .ok ({ ctx with conntable := conntable_store ctx.conntable key st1 }, out, count) := by
  simp [tcpreasm_read, hget, hrd]

/-- A read that asks for at least the head fragment's length takes the whole
head fragment. -/
theorem tcpreasm_read_stream_full (st : tcpreasm_stream_t) (f : fragment) (next : List fragment)
    (length : Nat) (hfr : st.fragments = f :: next) (hseq : f.seqno = st.seqno)
    (hcap : f.length ≤ f.buf.length) (hlen : f.length ≤ length) :
    tcpreasm_read_stream st length
      = .ok ({ st with fragments := next, seqno := add32 st.seqno f.length },
             f.buf.take f.length, f.length) := by
  by_cases h : length > f.length
  · simp [tcpreasm_read_stream, hfr, hseq, h]
    omega
  · have : length = f.length := by omega
    subst this
    simp [tcpreasm_read_stream, hfr, hseq]
    omega

/-- Reading at least the head fragment's length through a handle: the whole head
fragment is returned and unlinked, and the cursor moves past it. -/
theorem tcpreasm_read_full (ctx : tcpreasm_ctx_t) (key : tcpreasm_connkey_t)
    (avail length : Nat) (st : tcpreasm_stream_t) (f : fragment) (next : List fragment)
    (hget : hashmapGet ctx.conntable key = some st)
    (hfr : st.fragments = f :: next) (hseq : f.seqno = st.seqno)
    (hcap : f.length ≤ f.buf.length) (hlen : f.length ≤ length) :
    ∃ ctx1 st2, tcpreasm_read ctx ⟨some key, avail⟩ length
        = .ok (ctx1, f.buf.take f.length, f.length) ∧
      hashmapGet ctx1.conntable key = some st2 ∧ st2.fragments = next ∧
      st2.seqno = add32 st.seqno f.length := by
  have hrd := tcpreasm_read_stream_full st f next length hfr hseq hcap hlen
  exact ⟨_, _, tcpreasm_read_of_stream ctx key avail length _ _ _ _ hget hrd,
    hashmapGet_conntable_store _ key _ _ hget, rfl, rfl⟩

/-- C2 (in-order delivery): on a newly created stream (no fragment, no payload
seen yet), appending the non-empty chunks `c_1 .. c_j` of total length
`T < 2^31 - 1` at the sequence numbers `n`, `n + |c_1|`, ... (mod `2^32`) makes
the last `tcp_append` return `T`; a following `tcpreasm_read` with max length
at least `T` returns `T` and exactly `c_1 ++ ... ++ c_j`, and leaves the
fragment list of the stream empty. -/
theorem in_order_delivery (st : tcpreasm_stream_t) (n : Nat) (chunks : List (List Nat))
    (hfr : st.fragments = []) (hseen : st.is_payload_seen = false)
    (hne : chunks ≠ []) (hc : ∀ c ∈ chunks, c ≠ [])
    (hT : chunks.flatten.length < 2147483647) :
    ∃ st1, append_in_order (st, 0) n chunks = .ok (st1, chunks.flatten.length) ∧
      ∀ (ctx : tcpreasm_ctx_t) (key : tcpreasm_connkey_t) (avail maxlen : Nat),
        hashmapGet ctx.conntable key = some st1 → chunks.flatten.length ≤ maxlen →
        ∃ ctx1 st2, tcpreasm_read ctx ⟨some key, avail⟩ maxlen
            = .ok (ctx1, chunks.flatten, chunks.flatten.length) ∧
          hashmapGet ctx1.conntable key = some st2 ∧ st2.fragments = [] := by
  cases chunks with
  | nil => exact absurd rfl hne
  | cons c cs =>
    have hc1 : 1 ≤ c.length := List.length_pos.mpr (hc c (by simp))
    have hlen : (c :: cs).flatten.length = c.length + cs.flatten.length := by simp
    rw [hlen] at hT
    have hfirst := tcp_append_first st n c hseen hfr hc1
    have hrest := append_in_order_rest n cs
      { st with seqno := n, is_payload_seen := true, fragments := [⟨n, c.length, c⟩] } c
      rfl rfl rfl hc1 (fun d hd => hc d (by simp [hd])) (by omega)
    refine ⟨⟨st.conn, n, true, [⟨n, (c ++ cs.flatten).length, c ++ cs.flatten⟩], st.userdata⟩,
      ?_, ?_⟩
    · simp only [append_in_order, hfirst]
      rw [hrest]
      simp only [List.flatten_cons]
    · intro ctx key avail maxlen hget hmax
      have hlen2 : (c ++ cs.flatten).length ≤ maxlen := by
        rw [List.length_append]; omega
      obtain ⟨ctx1, st2, h1, h2, h3, _⟩ := tcpreasm_read_full ctx key avail maxlen _
        ⟨n, (c ++ cs.flatten).length, c ++ cs.flatten⟩ [] hget rfl rfl (Nat.le_refl _) hlen2
      refine ⟨ctx1, st2, ?_, h2, h3⟩
      simp only [List.take_length] at h1
      simpa only [List.flatten_cons] using h1

/-- C2, witness: three chunks of 3, 4 and 1 bytes from sequence number
`2^32 - 2`, so that the second and third chunk lie past the wraparound. -/
theorem in_order_delivery_witness :
    ∃ st1, append_in_order (⟨⟨6, 4, 53, 4000, [], []⟩, 1, false, [], []⟩, 0) 4294967294
        [[1, 2, 3], [4, 5, 6, 7], [8]] = .ok (st1, [[1, 2, 3], [4, 5, 6, 7], [8]].flatten.length) ∧
      ∀ (ctx : tcpreasm_ctx_t) (key : tcpreasm_connkey_t) (avail maxlen : Nat),
        hashmapGet ctx.conntable key = some st1 →
        [[1, 2, 3], [4, 5, 6, 7], [8]].flatten.length ≤ maxlen →
        ∃ ctx1 st2, tcpreasm_read ctx ⟨some key, avail⟩ maxlen
            = .ok (ctx1, [[1, 2, 3], [4, 5, 6, 7], [8]].flatten,
                   [[1, 2, 3], [4, 5, 6, 7], [8]].flatten.length) ∧
          hashmapGet ctx1.conntable key = some st2 ∧ st2.fragments = [] :=
  in_order_delivery _ 4294967294 [[1, 2, 3], [4, 5, 6, 7], [8]] rfl rfl (by decide) (by decide)
    (by decide)
/-- C3, failing input: the head fragment holds a DNS-over-TCP message, the
2-byte length prefix `0, 3` and the 3-byte body `65, 66, 67`.  Reading the
prefix moves only `L - 2m = 1` byte down (`frag->length` has already been
decremented when `memmove` is called), so the fragment then holds `65, 3, 65`
and the second read returns these instead of `65, 66, 67`. -/
theorem partial_read_shifts_too_few_bytes :
    tcpreasm_read
        ⟨[(⟨6, 4, 53, 4000, [], []⟩, ⟨⟨6, 4, 53, 4000, [], []⟩, 100, true,
            [⟨100, 5, [0, 3, 65, 66, 67]⟩], []⟩)], 0, false, [], []⟩
        ⟨some ⟨6, 4, 53, 4000, [], []⟩, 5⟩ 2
      = .ok (⟨[(⟨6, 4, 53, 4000, [], []⟩, ⟨⟨6, 4, 53, 4000, [], []⟩, 102, true,
            [⟨102, 3, [65, 3, 65, 66, 67]⟩], []⟩)], 0, false, [], []⟩, [0, 3], 2) ∧
    fragment.bytes ⟨102, 3, [65, 3, 65, 66, 67]⟩ = [65, 3, 65] ∧
    tcpreasm_read
        ⟨[(⟨6, 4, 53, 4000, [], []⟩, ⟨⟨6, 4, 53, 4000, [], []⟩, 102, true,
            [⟨102, 3, [65, 3, 65, 66, 67]⟩], []⟩)], 0, false, [], []⟩
        ⟨some ⟨6, 4, 53, 4000, [], []⟩, 3⟩ 3
      = .ok (⟨[(⟨6, 4, 53, 4000, [], []⟩, ⟨⟨6, 4, 53, 4000, [], []⟩, 105, true,
            [], []⟩)], 0, false, [], []⟩, [65, 3, 65], 3) :=
  ⟨rfl, rfl, rfl⟩

/-- C4, failing inputs: a stream holding the single fragment `[100, 110)` gets
the range `[94, 99)`, one byte short of touching it: `_frag_is_overlap` accepts
the range, the assertion of `_frag_merge` rejects it and the process aborts.
A stream holding `[100, 105)` gets `[90, 102)`: the prepend path of
`_frag_merge` moves the old tail to offset 12 of a block of 8 bytes. -/
theorem append_gap_of_one_aborts :
    frags_sorted_disjoint [⟨100, 10, [1, 1, 1, 1, 1, 1, 1, 1, 1, 1]⟩] = true ∧
    tcp_append ⟨⟨6, 4, 53, 4000, [], []⟩, 100, true,
        [⟨100, 10, [1, 1, 1, 1, 1, 1, 1, 1, 1, 1]⟩], []⟩ 94 [2, 2, 2, 2, 2] 5
      = .error Fault.assert_failed ∧
    tcp_append ⟨⟨6, 4, 53, 4000, [], []⟩, 100, true,
        [⟨100, 5, [1, 1, 1, 1, 1]⟩], []⟩ 90 [2, 2, 2, 2, 2, 2, 2, 2, 2, 2, 2, 2] 12
      = .error Fault.out_of_bounds :=
  ⟨rfl, rfl, rfl⟩

/-- C5, failing input: the list `[100, 110)`, `[120, 130)` is sorted and
non-overlapping; the range `[105, 125)` is merged into the first fragment only,
which leaves `[100, 125)` in front of `[120, 130)`: the list is no longer
non-overlapping (the "double overlap" the source prints and does not handle). -/
theorem append_leaves_double_overlap :
    frags_sorted_disjoint
        [⟨100, 10, [1, 1, 1, 1, 1, 1, 1, 1, 1, 1]⟩, ⟨120, 10, [2, 2, 2, 2, 2, 2, 2, 2, 2, 2]⟩]
      = true ∧
    tcp_append ⟨⟨6, 4, 53, 4000, [], []⟩, 100, true,
        [⟨100, 10, [1, 1, 1, 1, 1, 1, 1, 1, 1, 1]⟩, ⟨120, 10, [2, 2, 2, 2, 2, 2, 2, 2, 2, 2]⟩],
        []⟩ 105 [3, 3, 3, 3, 3, 3, 3, 3, 3, 3, 3, 3, 3, 3, 3, 3, 3, 3, 3, 3] 20
      = .ok (⟨⟨6, 4, 53, 4000, [], []⟩, 100, true,
          [⟨100, 25, [1, 1, 1, 1, 1, 1, 1, 1, 1, 1, 3, 3, 3, 3, 3, 3, 3, 3, 3, 3, 3, 3, 3, 3, 3]⟩,
           ⟨120, 10, [2, 2, 2, 2, 2, 2, 2, 2, 2, 2]⟩], []⟩, 25) ∧
    frags_sorted_disjoint
        [⟨100, 25, [1, 1, 1, 1, 1, 1, 1, 1, 1, 1, 3, 3, 3, 3, 3, 3, 3, 3, 3, 3, 3, 3, 3, 3, 3]⟩,
         ⟨120, 10, [2, 2, 2, 2, 2, 2, 2, 2, 2, 2]⟩]
      = false :=
  ⟨rfl, rfl, rfl⟩

/-- C6, failing inputs: `_frag_is_overlap` is true and the assertion of
`_frag_merge` is false (so `tcp_append` aborts) for the fragment `[100, 110)`
with the range `(seqno 111, length 5)`, one byte past its end; for the
fragment `[101, 110)` with the zero-length range `(seqno 100, length 0)` the
loop passes on after merging the byte at 100 into `[90, 100)`; and for the
fragment `[100, 110)` with the range `(seqno 95, length 20)`, which covers it
and more on both sides.  On the wire: a SYN with sequence number 99, a
segment with 2 bytes at 100 and a segment with 1 byte at 103 (the byte at 102
is missing) abort the process. -/
theorem overlap_accepted_assert_rejected :
    (_frag_is_overlap ⟨100, 10, [1, 1, 1, 1, 1, 1, 1, 1, 1, 1]⟩ 111 5 = true ∧
     frag_merge_assert ⟨100, 10, [1, 1, 1, 1, 1, 1, 1, 1, 1, 1]⟩ 111 5 = false ∧
     tcp_append ⟨⟨6, 4, 53, 4000, [], []⟩, 100, true,
         [⟨100, 10, [1, 1, 1, 1, 1, 1, 1, 1, 1, 1]⟩], []⟩ 111 [2, 2, 2, 2, 2] 5
       = .error Fault.assert_failed) ∧
    (_frag_is_overlap ⟨101, 9, [2, 2, 2, 2, 2, 2, 2, 2, 2]⟩ 100 0 = true ∧
     frag_merge_assert ⟨101, 9, [2, 2, 2, 2, 2, 2, 2, 2, 2]⟩ 100 0 = false ∧
     tcp_append ⟨⟨6, 4, 53, 4000, [], []⟩, 90, true,
         [⟨90, 10, [1, 1, 1, 1, 1, 1, 1, 1, 1, 1]⟩, ⟨101, 9, [2, 2, 2, 2, 2, 2, 2, 2, 2]⟩],
         []⟩ 100 [3] 1
       = .error Fault.assert_failed) ∧
    (_frag_is_overlap ⟨100, 10, [1, 1, 1, 1, 1, 1, 1, 1, 1, 1]⟩ 95 20 = true ∧
     frag_merge_assert ⟨100, 10, [1, 1, 1, 1, 1, 1, 1, 1, 1, 1]⟩ 95 20 = false ∧
     tcp_append ⟨⟨6, 4, 53, 4000, [], []⟩, 100, true,
         [⟨100, 10, [1, 1, 1, 1, 1, 1, 1, 1, 1, 1]⟩], []⟩ 95
         [2, 2, 2, 2, 2, 2, 2, 2, 2, 2, 2, 2, 2, 2, 2, 2, 2, 2, 2, 2] 20
       = .error Fault.assert_failed) ∧
    (tcpreasm_insert_packet ⟨[], 0, false, [], []⟩
        [69, 0, 0, 40, 0, 0, 0, 0, 64, 6, 0, 0, 10, 0, 0, 1, 10, 0, 0, 2,
         0, 53, 15, 160, 0, 0, 0, 99, 0, 0, 0, 0, 80, 2, 0, 0, 0, 0, 0, 0] 0 0).bind
      (fun r1 =>
        (tcpreasm_insert_packet r1.1
          [69, 0, 0, 42, 0, 0, 0, 0, 64, 6, 0, 0, 10, 0, 0, 1, 10, 0, 0, 2,
           0, 53, 15, 160, 0, 0, 0, 100, 0, 0, 0, 0, 80, 24, 0, 0, 0, 0, 0, 0, 1, 2] 0 0).bind
        (fun r2 =>
          tcpreasm_insert_packet r2.1
            [69, 0, 0, 41, 0, 0, 0, 0, 64, 6, 0, 0, 10, 0, 0, 1, 10, 0, 0, 2,
             0, 53, 15, 160, 0, 0, 0, 103, 0, 0, 0, 0, 80, 24, 0, 0, 0, 0, 0, 0, 3] 0 0))
      = .error Fault.assert_failed :=
  ⟨⟨rfl, rfl, rfl⟩, ⟨rfl, rfl, rfl⟩, ⟨rfl, rfl, rfl⟩, rfl⟩

/-- C9, failing input: the head fragment holds 3 bytes at the expected
sequence number and the caller asks for 2.  The claim has the call return 2;
the source computes the `memmove` count `frag->length - length` after
`frag->length` has been decremented, `1 - 2` as a `size_t`, and moves
`2^64 - 1` bytes. -/
theorem partial_read_past_half_faults :
    sub64 (sub32 3 2) 2 = 18446744073709551615 ∧
    tcpreasm_read
        ⟨[(⟨6, 4, 53, 4000, [], []⟩, ⟨⟨6, 4, 53, 4000, [], []⟩, 100, true,
            [⟨100, 3, [1, 2, 3]⟩], []⟩)], 0, false, [], []⟩
        ⟨some ⟨6, 4, 53, 4000, [], []⟩, 3⟩ 2
      = .error Fault.out_of_bounds :=
  ⟨rfl, rfl⟩

/-- C10, failing input: an IPv4 UDP datagram (protocol byte 17) from port 53
carrying a 12-byte DNS header with two questions.  The IPv4 case never looks
at the protocol, the bytes after the IP header are read as a TCP header (data
offset 0, flag byte 2, that is SYN), a stream is created for the key with
protocol 17 and the result carries that key and 20 available bytes. -/
theorem ipv4_udp_packet_creates_stream :
    byte_at [69, 0, 0, 40, 0, 0, 0, 0, 64, 17, 0, 0, 10, 0, 0, 1, 10, 0, 0, 2,
             0, 53, 0, 53, 0, 20, 0, 0, 18, 52, 1, 0, 0, 2, 0, 0, 0, 0, 0, 0] 9 = 17 ∧
    tcpreasm_insert_packet ⟨[], 0, false, [], []⟩
        [69, 0, 0, 40, 0, 0, 0, 0, 64, 17, 0, 0, 10, 0, 0, 1, 10, 0, 0, 2,
         0, 53, 0, 53, 0, 20, 0, 0, 18, 52, 1, 0, 0, 2, 0, 0, 0, 0, 0, 0] 0 0
      = .ok (⟨[(⟨17, 4, 53, 53, [10, 0, 0, 1, 0, 0, 0, 0, 0, 0, 0, 0, 0, 0, 0, 0],
                  [10, 0, 0, 2, 0, 0, 0, 0, 0, 0, 0, 0, 0, 0, 0, 0]⟩,
                ⟨⟨17, 4, 53, 53, [10, 0, 0, 1, 0, 0, 0, 0, 0, 0, 0, 0, 0, 0, 0, 0],
                  [10, 0, 0, 2, 0, 0, 0, 0, 0, 0, 0, 0, 0, 0, 0, 0]⟩, 1310720, true,
                 [⟨1310720, 20,
                   [0, 53, 0, 53, 0, 20, 0, 0, 18, 52, 1, 0, 0, 2, 0, 0, 0, 0, 0, 0]⟩], []⟩)],
              0, false,
              [(⟨17, 4, 53, 53, [10, 0, 0, 1, 0, 0, 0, 0, 0, 0, 0, 0, 0, 0, 0, 0],
                  [10, 0, 0, 2, 0, 0, 0, 0, 0, 0, 0, 0, 0, 0, 0, 0]⟩, 100, 0)], []⟩,
             ⟨some ⟨17, 4, 53, 53, [10, 0, 0, 1, 0, 0, 0, 0, 0, 0, 0, 0, 0, 0, 0, 0],
                  [10, 0, 0, 2, 0, 0, 0, 0, 0, 0, 0, 0, 0, 0, 0, 0]⟩, 20⟩) :=
  ⟨rfl, rfl⟩


theorem realloc_length (mem : List Nat) (n : Nat) : (realloc mem n).length = n := by
  simp [realloc]; omega

/-- A range that starts after the fragment's start and ends inside it is
dropped by `tcp_append_loop`. -/
theorem tcp_append_loop_contained (F : fragment) (i : Nat) (N : List Nat)
    (hi : 1 ≤ i) (hN : 1 ≤ N.length) (him : i + N.length ≤ F.length)
    (hL : F.length < 2147483648) (hb : i + N.length + 1 < 2147483648) :
    tcp_append_loop (add32 F.seqno i) N N.length [F] = .ok [F] := by
  have ho : _frag_is_overlap F (add32 F.seqno i) N.length = true := by
    simp only [_frag_is_overlap, SEQNO_LT, SEQNO_GT, SEQNO_GTE, SEQNO_LTE, add32, sub32]
    simp only [Bool.not_eq_true', decide_eq_false_iff_not, decide_eq_true_eq]
    split_ifs <;> first | rfl | omega
  have h1 : frag_merge_assert F (add32 F.seqno i) N.length = true := by
    simp only [frag_merge_assert, IS_BETWEEN, SEQNO_GTE, SEQNO_LTE, add32, sub32,
      Bool.or_eq_true, Bool.and_eq_true, decide_eq_true_eq]
    left; omega
  have h2 : SEQNO_LT F.seqno (add32 F.seqno i) = true := by
    simp only [SEQNO_LT, SEQNO_GTE, add32, sub32, Bool.not_eq_true', decide_eq_false_iff_not]
    omega
  have h3 : sub32 (add32 F.seqno F.length) (add32 F.seqno i) ≥ N.length := by
    simp only [add32, sub32]; omega
  simp [tcp_append_loop, ho, _frag_merge, h1, h2, h3]
/-- At the edge of the comparison window (the range ends `2^31 - 1` bytes after
the fragment's start) the range is not seen as overlapping and is inserted in
front of the fragment. -/
theorem tcp_append_loop_window_edge (F : fragment) (i : Nat) (N : List Nat)
    (hN : 1 ≤ N.length) (hb : i + N.length + 1 = 2147483648) :
    tcp_append_loop (add32 F.seqno i) N N.length [F]
      = .ok [⟨add32 F.seqno i, N.length, N⟩, F] := by
  have ho : _frag_is_overlap F (add32 F.seqno i) N.length = false := by
    simp only [_frag_is_overlap, SEQNO_LT, SEQNO_GT, SEQNO_GTE, SEQNO_LTE, add32, sub32]
    simp only [Bool.not_eq_true', decide_eq_false_iff_not, decide_eq_true_eq]
    split_ifs <;> first | rfl | omega
  have ha : _frag_is_after F (add32 F.seqno i) N.length = true := by
    simp only [_frag_is_after, SEQNO_GT, SEQNO_LTE, add32, sub32, Bool.not_eq_true',
      decide_eq_false_iff_not]
    omega
  have h0 : ¬ (N.length = 0) := by omega
  simp [tcp_append_loop, ho, ha, h0, fragment_new_ok]

/-- On a stream that holds fragments, `tcp_append` of a non-empty range is the
loop over the list, followed by the count of available bytes. -/
theorem tcp_append_of_loop (st : tcpreasm_stream_t) (seqno : Nat) (buf : List Nat)
    (length : Nat) (f : fragment) (next fs : List fragment) (h0 : length ≠ 0)
    (hfr : st.fragments = f :: next)
    (hloop : tcp_append_loop seqno buf length (f :: next) = .ok fs) :
    tcp_append st seqno buf length
      = .ok (⟨st.conn, if st.is_payload_seen = false then seqno else st.seqno, true, fs,
               st.userdata⟩,
             tcp_append_end ⟨st.conn, if st.is_payload_seen = false then seqno else st.seqno,
               true, fs, st.userdata⟩) := by
  cases hs : st.is_payload_seen <;> simp [tcp_append, h0, hs, hfr, hloop]

/-- C7, counterexample: the fragment `[100, 104)` holds `1, 2, 3, 4`.  The
contained range `(seqno 100, length 4)` carrying `9, 9, 9, 9` replaces its
bytes, and the contained range `(seqno 100, length 2)` carrying `9, 9`
replaces the first two: after `tcp_append` the fragment holds `9, 9, 9, 9`,
respectively `9, 9, 3, 4`. -/
theorem contained_range_at_start_overwrites :
    fragment.bytes ⟨100, 4, [1, 2, 3, 4]⟩ = [1, 2, 3, 4] ∧
    tcp_append ⟨⟨6, 4, 53, 4000, [], []⟩, 100, true, [⟨100, 4, [1, 2, 3, 4]⟩], []⟩
        100 [9, 9, 9, 9] 4
      = .ok (⟨⟨6, 4, 53, 4000, [], []⟩, 100, true, [⟨100, 4, [9, 9, 9, 9]⟩], []⟩, 4) ∧
    fragment.bytes ⟨100, 4, [9, 9, 9, 9]⟩ = [9, 9, 9, 9] ∧
    tcp_append ⟨⟨6, 4, 53, 4000, [], []⟩, 100, true, [⟨100, 4, [1, 2, 3, 4]⟩], []⟩
        100 [9, 9] 2
      = .ok (⟨⟨6, 4, 53, 4000, [], []⟩, 100, true, [⟨100, 4, [9, 9, 3, 4, 0, 0]⟩], []⟩, 4) ∧
    fragment.bytes ⟨100, 4, [9, 9, 3, 4, 0, 0]⟩ = [9, 9, 3, 4] :=
  ⟨rfl, rfl, rfl, rfl, rfl⟩

/-- C7, amended (a contained range that starts after the fragment's start
leaves the stored bytes intact): for a stream holding the single fragment `F`
of length `L < 2^31` and a non-empty range at `F.seqno + i` of length `m` with
`1 ≤ i` and `i + m ≤ L`, whatever bytes it carries, `tcp_append` returns and
`F` is still in the list, unchanged; it is the only fragment when
`L < 2^31 - 1`. -/
theorem contained_range_keeps_bytes (st : tcpreasm_stream_t) (F : fragment) (i : Nat)
    (N : List Nat) (hfr : st.fragments = [F]) (hL : F.length < 2147483648)
    (hN : N ≠ []) (hi : 1 ≤ i) (him : i + N.length ≤ F.length) :
    ∃ st1 n pre, tcp_append st (add32 F.seqno i) N N.length = .ok (st1, n) ∧
      st1.fragments = pre ++ [F] ∧ (F.length < 2147483647 → pre = []) := by
  have hm : 1 ≤ N.length := List.length_pos.mpr hN
  have h0 : N.length ≠ 0 := by omega
  by_cases hb : i + N.length + 1 < 2147483648
  · have hloop := tcp_append_loop_contained F i N hi hm him hL hb
    exact ⟨_, _, [], tcp_append_of_loop st _ N _ F [] [F] h0 hfr hloop, rfl, fun _ => rfl⟩
  · have hloop := tcp_append_loop_window_edge F i N hm (by omega)
    exact ⟨_, _, [⟨add32 F.seqno i, N.length, N⟩],
      tcp_append_of_loop st _ N _ F [] _ h0 hfr hloop, rfl, fun h => by omega⟩

/-- C7, witness: the spec's example, `[seq=100,len=20]` then `[seq=105,len=10]`. -/
theorem contained_range_keeps_bytes_witness :
    ∃ st1 n pre,
      tcp_append ⟨⟨6, 4, 53, 4000, [], []⟩, 100, true,
          [⟨100, 20, [0, 1, 2, 3, 4, 5, 6, 7, 8, 9, 10, 11, 12, 13, 14, 15, 16, 17, 18, 19]⟩],
          []⟩ (add32 100 5) [9, 9, 9, 9, 9, 9, 9, 9, 9, 9] 10 = .ok (st1, n) ∧
      st1.fragments = pre ++
        [⟨100, 20, [0, 1, 2, 3, 4, 5, 6, 7, 8, 9, 10, 11, 12, 13, 14, 15, 16, 17, 18, 19]⟩] ∧
      ((20 : Nat) < 2147483647 → pre = []) :=
  contained_range_keeps_bytes
    ⟨⟨6, 4, 53, 4000, [], []⟩, 100, true,
      [⟨100, 20, [0, 1, 2, 3, 4, 5, 6, 7, 8, 9, 10, 11, 12, 13, 14, 15, 16, 17, 18, 19]⟩], []⟩
    ⟨100, 20, [0, 1, 2, 3, 4, 5, 6, 7, 8, 9, 10, 11, 12, 13, 14, 15, 16, 17, 18, 19]⟩ 5
    [9, 9, 9, 9, 9, 9, 9, 9, 9, 9] rfl (by decide) (by decide) (by decide) (by decide)

/-- Every stream that holds a fragment has its payload-seen flag set: the
property holds for the zeroed stream of `_stream_new` and `tcp_append` keeps
it. -/
theorem tcp_append_payload_seen (st st1 : tcpreasm_stream_t) (seqno : Nat) (buf : List Nat)
    (length n : Nat) (hinv : st.fragments ≠ [] → st.is_payload_seen = true)
    (h : tcp_append st seqno buf length = .ok (st1, n)) :
    st1.fragments ≠ [] → st1.is_payload_seen = true := by
  by_cases h0 : length = 0
  · simp only [tcp_append, h0, if_true, Except.ok.injEq, Prod.mk.injEq] at h
    rw [← h.1]
    exact hinv
  · intro _
    cases hs : st.is_payload_seen
    · simp only [tcp_append, h0, hs, if_false, if_true] at h
      split at h
      · cases h
      · simp only [Except.ok.injEq, Prod.mk.injEq] at h
        rw [← h.1]
    · simp only [tcp_append, h0, hs, if_false, Bool.true_eq_false] at h
      split at h
      · cases h
      · simp only [Except.ok.injEq, Prod.mk.injEq] at h
        rw [← h.1]

theorem decode_tcp_misfit (buf : List Nat) (v p : Nat) (a b : List Nat) (offset : Nat)
    (h : tcp_header_misfit buf offset) : decode_tcp buf v p a b offset = none := by
  unfold tcp_header_misfit at h
  unfold decode_tcp
  rcases h with h | h
  · simp [h]
  · by_cases h20 : offset + 20 > buf.length
    · simp [h20]
    · simp [h20, h]

theorem ipv6_ext_loop_at_tcp (buf : List Nat) (length fuel offset : Nat) (h : fuel ≠ 0) :
    ipv6_ext_loop buf length fuel 6 offset = some (6, offset) := by
  cases fuel with
  | zero => exact absurd rfl h
  | succ k => simp [ipv6_ext_loop]

theorem ipv6_ext_walk_spec_at_tcp (buf : List Nat) (length fuel offset : Nat) (h : fuel ≠ 0) :
    ipv6_ext_walk_spec buf length fuel 6 offset = some (6, offset) := by
  cases fuel with
  | zero => exact absurd rfl h
  | succ k => simp [ipv6_ext_walk_spec]

/-- Every malformed packet that is not an IPv6 packet with extension headers
(its next-header byte, if it is IPv6, is the TCP protocol number) fails the
header decoding. -/
theorem decode_headers_malformed (buf : List Nat) (h : malformed_packet buf)
    (hplain : byte_at buf 0 >>> 4 = 6 → byte_at buf 6 = 6) :
    decode_headers buf = none := by
  unfold malformed_packet at h
  unfold decode_headers
  rcases h with h | ⟨h4, h6⟩ | ⟨h4, h⟩ | ⟨h6, h⟩ | ⟨h4, h⟩ | ⟨h6, p, off, hl, h⟩
  · simp [h]
  · simp [h4, h6]
  · rcases h with h | h
    · simp [h4, h]
    · by_cases h20 : buf.length < 20
      · simp [h4, h20]
      · simp [h4, h20, h]
  · simp [h6, h]
  · by_cases h1 : buf.length < 1
    · simp [h1]
    · by_cases h20 : buf.length < 20
      · simp [h4, h20]
      · by_cases hh : buf.length < (byte_at buf 0 &&& 15) * 4
        · simp [h4, h20, hh]
        · simp only [h1, h4, h20, hh, if_false, if_true]
          exact decode_tcp_misfit _ _ _ _ _ _ h
  · by_cases h1 : buf.length < 1
    · simp [h1]
    · by_cases h40 : buf.length < 40
      · simp [h6, h40]
      · have hfuel : buf.length ≠ 0 := by omega
        rw [hplain h6, ipv6_ext_walk_spec_at_tcp _ _ _ _ hfuel] at hl
        simp only [Option.some.injEq, Prod.mk.injEq] at hl
        obtain ⟨_, hoff⟩ := hl
        subst hoff
        simp only [h1, h6, h40, if_false, if_true, hplain h6,
          ipv6_ext_loop_at_tcp _ _ _ _ hfuel]
        simp [decode_tcp_misfit _ _ _ _ _ _ h]

/-- The malformed packets that are rejected without touching state: for every
context and every malformed packet that is not an IPv6 packet with extension
headers, `tcpreasm_insert_packet` returns the zeroed result (`available = 0`,
no connection key) and the context, with its table and all its streams, is
the one it was given. -/
theorem malformed_packet_rejected_without_extension (ctx : tcpreasm_ctx_t) (buf : List Nat)
    (secs usecs : Nat) (h : malformed_packet buf)
    (hplain : byte_at buf 0 >>> 4 = 6 → byte_at buf 6 = 6) :
    tcpreasm_insert_packet ctx buf secs usecs = .ok (ctx, { conn := none, available := 0 }) := by
  simp [tcpreasm_insert_packet, decode_headers_malformed buf h hplain]

/-- C11, failing input: an IPv6 packet of 71 bytes with next-header 0
(hop-by-hop), one extension header of 16 bytes (next-protocol byte 6, length
byte 1) at offset 40 and, behind it at offset 56, only 15 bytes of TCP header.
The TCP header does not fit in the remaining bytes, so the packet is
malformed; the source moves the offset by `8 + 1` to 49, finds 20 bytes
there, reads data offset 0 and flag byte 2, creates a stream and reports 22
available bytes. -/
theorem truncated_tcp_behind_extension_accepted :
    ipv6_ext_walk_spec
        [96, 0, 0, 0, 0, 31, 0, 64,
         32, 1, 13, 184, 0, 0, 0, 0, 0, 0, 0, 0, 0, 0, 0, 1,
         32, 1, 13, 184, 0, 0, 0, 0, 0, 0, 0, 0, 0, 0, 0, 2,
         6, 1, 1, 12, 0, 0, 0, 0, 0, 0, 0, 0, 0, 0, 0, 0,
         31, 144, 15, 160, 0, 0, 2, 0, 0, 0, 0, 0, 80, 2, 255] 71 71 0 40
      = some (6, 56) ∧
    malformed_packet
        [96, 0, 0, 0, 0, 31, 0, 64,
         32, 1, 13, 184, 0, 0, 0, 0, 0, 0, 0, 0, 0, 0, 0, 1,
         32, 1, 13, 184, 0, 0, 0, 0, 0, 0, 0, 0, 0, 0, 0, 2,
         6, 1, 1, 12, 0, 0, 0, 0, 0, 0, 0, 0, 0, 0, 0, 0,
         31, 144, 15, 160, 0, 0, 2, 0, 0, 0, 0, 0, 80, 2, 255] ∧
    tcpreasm_insert_packet ⟨[], 0, false, [], []⟩
        [96, 0, 0, 0, 0, 31, 0, 64,
         32, 1, 13, 184, 0, 0, 0, 0, 0, 0, 0, 0, 0, 0, 0, 1,
         32, 1, 13, 184, 0, 0, 0, 0, 0, 0, 0, 0, 0, 0, 0, 2,
         6, 1, 1, 12, 0, 0, 0, 0, 0, 0, 0, 0, 0, 0, 0, 0,
         31, 144, 15, 160, 0, 0, 2, 0, 0, 0, 0, 0, 80, 2, 255] 0 0
      = .ok (⟨[(⟨6, 6, 0, 0, [32, 1, 13, 184, 0, 0, 0, 0, 0, 0, 0, 0, 0, 0, 0, 1],
          [32, 1, 13, 184, 0, 0, 0, 0, 0, 0, 0, 0, 0, 0, 0, 2]⟩,
                ⟨⟨6, 6, 0, 0, [32, 1, 13, 184, 0, 0, 0, 0, 0, 0, 0, 0, 0, 0, 0, 1],
          [32, 1, 13, 184, 0, 0, 0, 0, 0, 0, 0, 0, 0, 0, 0, 2]⟩, 31, true,
                 [⟨31, 22, [0, 0, 0, 0, 0, 0, 0, 31, 144, 15, 160, 0, 0, 2, 0, 0, 0, 0, 0,
                            80, 2, 255]⟩], []⟩)],
              0, false,
              [(⟨6, 6, 0, 0, [32, 1, 13, 184, 0, 0, 0, 0, 0, 0, 0, 0, 0, 0, 0, 1],
          [32, 1, 13, 184, 0, 0, 0, 0, 0, 0, 0, 0, 0, 0, 0, 2]⟩, 100, 0)], []⟩,
             ⟨some ⟨6, 6, 0, 0, [32, 1, 13, 184, 0, 0, 0, 0, 0, 0, 0, 0, 0, 0, 0, 1],
          [32, 1, 13, 184, 0, 0, 0, 0, 0, 0, 0, 0, 0, 0, 0, 2]⟩, 22⟩) :=
  ⟨rfl,
   Or.inr (Or.inr (Or.inr (Or.inr (Or.inr
     ⟨by decide, 6, 56, rfl, Or.inl (by decide)⟩)))),
   rfl⟩

/-- A packet the decoder reads as a TCP segment without the SYN flag, for a
key that has no stream in the table, is ignored: `tcpreasm_insert_packet`
returns the zeroed result (`available = 0`, no connection key) and leaves the
context, hence the table, as it was. -/
theorem stray_segment_ignored (ctx : tcpreasm_ctx_t) (buf : List Nat) (secs usecs : Nat)
    (seg : tcp_segment) (hdec : decode_headers buf = some seg)
    (hsyn : seg.tcp_flags &&& SYN = 0) (hget : hashmapGet ctx.conntable seg.conn = none) :
    tcpreasm_insert_packet ctx buf secs usecs = .ok (ctx, { conn := none, available := 0 }) := by
  simp [tcpreasm_insert_packet, hdec, hget, hsyn]

/-- C16 (wraparound-safe ordering): for every 32-bit `a` and every `k` with
`1 ≤ k < 2^31`, with `b = (a + k) mod 2^32`, the relations `SEQNO_LT a b`,
`SEQNO_LTE a b`, `SEQNO_GT b a` and `SEQNO_GTE b a` are true and `SEQNO_GT a b`,
`SEQNO_GTE a b`, `SEQNO_LT b a` and `SEQNO_LTE b a` are false. -/
theorem seqno_order_wraparound (a k : Nat) (hk1 : 1 ≤ k) (hk : k < 2147483648) :
    SEQNO_LT a (add32 a k) = true ∧ SEQNO_LTE a (add32 a k) = true ∧
    SEQNO_GT (add32 a k) a = true ∧ SEQNO_GTE (add32 a k) a = true ∧
    SEQNO_GT a (add32 a k) = false ∧ SEQNO_GTE a (add32 a k) = false ∧
    SEQNO_LT (add32 a k) a = false ∧ SEQNO_LTE (add32 a k) a = false := by
  simp only [SEQNO_LT, SEQNO_LTE, SEQNO_GT, SEQNO_GTE, add32, sub32, Bool.not_eq_true',
    Bool.not_eq_false', decide_eq_true_eq, decide_eq_false_iff_not]
  omega

/-- C18 (appending nothing is a no-op): for every stream, sequence number and
buffer, `tcp_append` with length 0 returns the stream as it was (expected
sequence number, payload-seen flag and fragment list included) and the head
fragment's length if the list is non-empty and its head starts at the expected
sequence number, 0 otherwise. -/
theorem tcp_append_nothing (st : tcpreasm_stream_t) (seqno : Nat) (buf : List Nat) :
    tcp_append st seqno buf 0
      = .ok (st, match st.fragments with
                 | [] => 0
                 | frag :: _ => if frag.seqno = st.seqno then frag.length else 0) := by
  simp [tcp_append, tcp_append_end]


/-- The spec's example of a malformed packet, an IPv4 packet of 20 bytes whose
header-length field claims 60, offered to a context that holds a stream: it is
rejected and the context is untouched. -/
theorem malformed_ipv4_header_length_rejected :
    malformed_packet [79, 0, 0, 20, 0, 0, 0, 0, 64, 6, 0, 0, 10, 0, 0, 1, 10, 0, 0, 2] ∧
    tcpreasm_insert_packet
        ⟨[(⟨6, 4, 53, 4000, [], []⟩, ⟨⟨6, 4, 53, 4000, [], []⟩, 100, true,
            [⟨100, 2, [1, 2]⟩], []⟩)], 0, false, [(⟨6, 4, 53, 4000, [], []⟩, 100, 0)], []⟩
        [79, 0, 0, 20, 0, 0, 0, 0, 64, 6, 0, 0, 10, 0, 0, 1, 10, 0, 0, 2] 7 0
      = .ok (⟨[(⟨6, 4, 53, 4000, [], []⟩, ⟨⟨6, 4, 53, 4000, [], []⟩, 100, true,
            [⟨100, 2, [1, 2]⟩], []⟩)], 0, false, [(⟨6, 4, 53, 4000, [], []⟩, 100, 0)], []⟩,
             { conn := none, available := 0 }) :=
  ⟨Or.inr (Or.inr (Or.inl ⟨by decide, Or.inr (by decide)⟩)),
   malformed_packet_rejected_without_extension _ _ 7 0
     (Or.inr (Or.inr (Or.inl ⟨by decide, Or.inr (by decide)⟩)))
     (fun h => absurd h (by decide))⟩

/-- An IPv4 segment with flags PSH and ACK and two payload bytes at sequence
number 100, offered to an empty table, is ignored. -/
theorem stray_ipv4_segment_ignored :
    decode_headers
        [69, 0, 0, 42, 0, 0, 0, 0, 64, 6, 0, 0, 10, 0, 0, 1, 10, 0, 0, 2,
         0, 53, 15, 160, 0, 0, 0, 100, 0, 0, 0, 0, 80, 24, 0, 0, 0, 0, 0, 0, 1, 2]
      = some ⟨⟨6, 4, 53, 4000, [10, 0, 0, 1, 0, 0, 0, 0, 0, 0, 0, 0, 0, 0, 0, 0],
                [10, 0, 0, 2, 0, 0, 0, 0, 0, 0, 0, 0, 0, 0, 0, 0]⟩, 100, 24, 40⟩ ∧
    tcpreasm_insert_packet ⟨[], 0, false, [], []⟩
        [69, 0, 0, 42, 0, 0, 0, 0, 64, 6, 0, 0, 10, 0, 0, 1, 10, 0, 0, 2,
         0, 53, 15, 160, 0, 0, 0, 100, 0, 0, 0, 0, 80, 24, 0, 0, 0, 0, 0, 0, 1, 2] 0 0
      = .ok (⟨[], 0, false, [], []⟩, { conn := none, available := 0 }) :=
  ⟨rfl, stray_segment_ignored ⟨[], 0, false, [], []⟩ _ 0 0
    ⟨⟨6, 4, 53, 4000, [10, 0, 0, 1, 0, 0, 0, 0, 0, 0, 0, 0, 0, 0, 0, 0],
       [10, 0, 0, 2, 0, 0, 0, 0, 0, 0, 0, 0, 0, 0, 0, 0]⟩, 100, 24, 40⟩ rfl (by decide) rfl⟩

/-- C15, failing input: an IPv6 packet of 76 bytes with next-header 0
(hop-by-hop), one extension header of 16 bytes (next-protocol byte 6, length
byte 1) at offset 40 and, behind it at offset 56, a TCP segment from port
8080 to port 4000 with sequence number 512 and flag byte 16 (ACK only, no
SYN), offered to an empty table.  The source moves the offset by `8 + 1` to
49, reads the third byte of the sequence number as the flag byte, 2 (SYN),
creates a stream and reports 27 available bytes. -/
theorem ipv6_ack_behind_extension_creates_stream :
    ipv6_ext_walk_spec
        [96, 0, 0, 0, 0, 36, 0, 64,
         32, 1, 13, 184, 0, 0, 0, 0, 0, 0, 0, 0, 0, 0, 0, 1,
         32, 1, 13, 184, 0, 0, 0, 0, 0, 0, 0, 0, 0, 0, 0, 2,
         6, 1, 1, 12, 0, 0, 0, 0, 0, 0, 0, 0, 0, 0, 0, 0,
         31, 144, 15, 160, 0, 0, 2, 0, 0, 0, 0, 0, 80, 16, 255, 255, 0, 0, 0, 0] 76 76 0 40
      = some (6, 56) ∧
    decode_tcp
        [96, 0, 0, 0, 0, 36, 0, 64,
         32, 1, 13, 184, 0, 0, 0, 0, 0, 0, 0, 0, 0, 0, 0, 1,
         32, 1, 13, 184, 0, 0, 0, 0, 0, 0, 0, 0, 0, 0, 0, 2,
         6, 1, 1, 12, 0, 0, 0, 0, 0, 0, 0, 0, 0, 0, 0, 0,
         31, 144, 15, 160, 0, 0, 2, 0, 0, 0, 0, 0, 80, 16, 255, 255, 0, 0, 0, 0] 6 6
        [32, 1, 13, 184, 0, 0, 0, 0, 0, 0, 0, 0, 0, 0, 0, 1]
        [32, 1, 13, 184, 0, 0, 0, 0, 0, 0, 0, 0, 0, 0, 0, 2] 56
      = some ⟨⟨6, 6, 8080, 4000, [32, 1, 13, 184, 0, 0, 0, 0, 0, 0, 0, 0, 0, 0, 0, 1],
          [32, 1, 13, 184, 0, 0, 0, 0, 0, 0, 0, 0, 0, 0, 0, 2]⟩, 512, 16, 76⟩ ∧
    16 &&& SYN = 0 ∧
    decode_headers
        [96, 0, 0, 0, 0, 36, 0, 64,
         32, 1, 13, 184, 0, 0, 0, 0, 0, 0, 0, 0, 0, 0, 0, 1,
         32, 1, 13, 184, 0, 0, 0, 0, 0, 0, 0, 0, 0, 0, 0, 2,
         6, 1, 1, 12, 0, 0, 0, 0, 0, 0, 0, 0, 0, 0, 0, 0,
         31, 144, 15, 160, 0, 0, 2, 0, 0, 0, 0, 0, 80, 16, 255, 255, 0, 0, 0, 0]
      = some ⟨⟨6, 6, 0, 0, [32, 1, 13, 184, 0, 0, 0, 0, 0, 0, 0, 0, 0, 0, 0, 1],
          [32, 1, 13, 184, 0, 0, 0, 0, 0, 0, 0, 0, 0, 0, 0, 2]⟩, 31, 2, 49⟩ ∧
    tcpreasm_insert_packet ⟨[], 0, false, [], []⟩
        [96, 0, 0, 0, 0, 36, 0, 64,
         32, 1, 13, 184, 0, 0, 0, 0, 0, 0, 0, 0, 0, 0, 0, 1,
         32, 1, 13, 184, 0, 0, 0, 0, 0, 0, 0, 0, 0, 0, 0, 2,
         6, 1, 1, 12, 0, 0, 0, 0, 0, 0, 0, 0, 0, 0, 0, 0,
         31, 144, 15, 160, 0, 0, 2, 0, 0, 0, 0, 0, 80, 16, 255, 255, 0, 0, 0, 0] 0 0
      = .ok (⟨[(⟨6, 6, 0, 0, [32, 1, 13, 184, 0, 0, 0, 0, 0, 0, 0, 0, 0, 0, 0, 1],
          [32, 1, 13, 184, 0, 0, 0, 0, 0, 0, 0, 0, 0, 0, 0, 2]⟩,
                ⟨⟨6, 6, 0, 0, [32, 1, 13, 184, 0, 0, 0, 0, 0, 0, 0, 0, 0, 0, 0, 1],
          [32, 1, 13, 184, 0, 0, 0, 0, 0, 0, 0, 0, 0, 0, 0, 2]⟩, 31, true,
                 [⟨31, 27, [0, 0, 0, 0, 0, 0, 0, 31, 144, 15, 160, 0, 0, 2, 0, 0, 0, 0, 0,
                            80, 16, 255, 255, 0, 0, 0, 0]⟩], []⟩)],
              0, false,
              [(⟨6, 6, 0, 0, [32, 1, 13, 184, 0, 0, 0, 0, 0, 0, 0, 0, 0, 0, 0, 1],
          [32, 1, 13, 184, 0, 0, 0, 0, 0, 0, 0, 0, 0, 0, 0, 2]⟩, 100, 0)], []⟩,
             ⟨some ⟨6, 6, 0, 0, [32, 1, 13, 184, 0, 0, 0, 0, 0, 0, 0, 0, 0, 0, 0, 1],
          [32, 1, 13, 184, 0, 0, 0, 0, 0, 0, 0, 0, 0, 0, 0, 2]⟩, 27⟩) :=
  ⟨rfl, rfl, rfl, rfl, rfl⟩

/-- C16, witness: the spec's example, 5 is after `0xFFFFFFF0` (`k = 21`). -/
theorem seqno_order_wraparound_witness :
    add32 4294967280 21 = 5 ∧
    SEQNO_LT 4294967280 (add32 4294967280 21) = true ∧
    SEQNO_LTE 4294967280 (add32 4294967280 21) = true ∧
    SEQNO_GT (add32 4294967280 21) 4294967280 = true ∧
    SEQNO_GTE (add32 4294967280 21) 4294967280 = true ∧
    SEQNO_GT 4294967280 (add32 4294967280 21) = false ∧
    SEQNO_GTE 4294967280 (add32 4294967280 21) = false ∧
    SEQNO_LT (add32 4294967280 21) 4294967280 = false ∧
    SEQNO_LTE (add32 4294967280 21) 4294967280 = false :=
  ⟨rfl, seqno_order_wraparound 4294967280 21 (by decide) (by decide)⟩

theorem hashmapRemove_of_get_none (t : Hashmap) (key : tcpreasm_connkey_t)
    (h : hashmapGet t key = none) : hashmapRemove t key = t := by
  induction t with
  | nil => rfl
  | cons e rest ih =>
    obtain ⟨k, v⟩ := e
    by_cases hk : k = key
    · simp only [hashmapGet, if_pos hk] at h
      cases h
    · simp only [hashmapGet, if_neg hk] at h
      have hrest : List.filter (fun e => decide (e.1 ≠ key)) rest = rest := ih h
      show List.filter (fun e => decide (e.1 ≠ key)) ((k, v) :: rest) = (k, v) :: rest
      rw [List.filter_cons_of_pos (by simpa using hk), hrest]

theorem conntable_store_of_get_none (t : Hashmap) (key : tcpreasm_connkey_t)
    (s : tcpreasm_stream_t) (h : hashmapGet t key = none) : conntable_store t key s = t := by
  induction t with
  | nil => rfl
  | cons e rest ih =>
    obtain ⟨k, v⟩ := e
    by_cases hk : k = key
    · simp only [hashmapGet, if_pos hk] at h
      cases h
    · simp only [hashmapGet, if_neg hk] at h
      simp only [conntable_store, if_neg hk, ih h]

theorem filter_key_of_get_none (t : Hashmap) (key : tcpreasm_connkey_t)
    (h : hashmapGet t key = none) : t.filter (fun e => decide (e.1 = key)) = [] := by
  induction t with
  | nil => rfl
  | cons e rest ih =>
    obtain ⟨k, v⟩ := e
    by_cases hk : k = key
    · simp only [hashmapGet, if_pos hk] at h
      cases h
    · simp only [hashmapGet, if_neg hk] at h
      simp [List.filter_cons, hk, ih h]

/-- C12, failing input: a SYN with sequence number 99 that carries the two
payload bytes `1, 2`, offered to an empty table.  The stream is created with
expected sequence number 100 ("SYN=1-byte of virtual data"), and the payload
is then appended under the SYN's own sequence number 99, which, being the
first payload the stream sees, becomes the expected sequence number: the
stream in the table expects 99, not 100, and holds the data at `[99, 101)`.
The next segment of the connection, one byte at 102, is then one byte away
from that fragment and aborts on the assertion of `_frag_merge`. -/
theorem syn_payload_sequenced_at_syn_seqno :
    add32 99 1 = 100 ∧
    tcpreasm_insert_packet ⟨[], 0, false, [], []⟩
        [69, 0, 0, 42, 0, 0, 0, 0, 64, 6, 0, 0, 10, 0, 0, 1, 10, 0, 0, 2,
         0, 53, 15, 160, 0, 0, 0, 99, 0, 0, 0, 0, 80, 2, 0, 0, 0, 0, 0, 0, 1, 2] 0 0
      = .ok (⟨[(⟨6, 4, 53, 4000, [10, 0, 0, 1, 0, 0, 0, 0, 0, 0, 0, 0, 0, 0, 0, 0],
          [10, 0, 0, 2, 0, 0, 0, 0, 0, 0, 0, 0, 0, 0, 0, 0]⟩,
                ⟨⟨6, 4, 53, 4000, [10, 0, 0, 1, 0, 0, 0, 0, 0, 0, 0, 0, 0, 0, 0, 0],
          [10, 0, 0, 2, 0, 0, 0, 0, 0, 0, 0, 0, 0, 0, 0, 0]⟩, 99, true,
                 [⟨99, 2, [1, 2]⟩], []⟩)],
              0, false,
              [(⟨6, 4, 53, 4000, [10, 0, 0, 1, 0, 0, 0, 0, 0, 0, 0, 0, 0, 0, 0, 0],
          [10, 0, 0, 2, 0, 0, 0, 0, 0, 0, 0, 0, 0, 0, 0, 0]⟩, 100, 0)], []⟩,
             ⟨some ⟨6, 4, 53, 4000, [10, 0, 0, 1, 0, 0, 0, 0, 0, 0, 0, 0, 0, 0, 0, 0],
          [10, 0, 0, 2, 0, 0, 0, 0, 0, 0, 0, 0, 0, 0, 0, 0]⟩, 2⟩) ∧
    tcpreasm_insert_packet
        ⟨[(⟨6, 4, 53, 4000, [10, 0, 0, 1, 0, 0, 0, 0, 0, 0, 0, 0, 0, 0, 0, 0],
          [10, 0, 0, 2, 0, 0, 0, 0, 0, 0, 0, 0, 0, 0, 0, 0]⟩,
            ⟨⟨6, 4, 53, 4000, [10, 0, 0, 1, 0, 0, 0, 0, 0, 0, 0, 0, 0, 0, 0, 0],
          [10, 0, 0, 2, 0, 0, 0, 0, 0, 0, 0, 0, 0, 0, 0, 0]⟩, 99, true,
             [⟨99, 2, [1, 2]⟩], []⟩)],
          0, false,
          [(⟨6, 4, 53, 4000, [10, 0, 0, 1, 0, 0, 0, 0, 0, 0, 0, 0, 0, 0, 0, 0],
          [10, 0, 0, 2, 0, 0, 0, 0, 0, 0, 0, 0, 0, 0, 0, 0]⟩, 100, 0)], []⟩
        [69, 0, 0, 41, 0, 0, 0, 0, 64, 6, 0, 0, 10, 0, 0, 1, 10, 0, 0, 2,
         0, 53, 15, 160, 0, 0, 0, 102, 0, 0, 0, 0, 80, 16, 0, 0, 0, 0, 0, 0, 3] 0 0
      = .error Fault.assert_failed :=
  ⟨rfl, rfl, rfl⟩

/-- A packet the decoder reads as a TCP segment with the SYN flag set,
sequence number `s` and no payload, for a key that has no stream in the
table: `tcpreasm_insert_packet` returns and the table is the old one with one
new entry in front, the stream of that key: it is what a lookup of the key
finds, the only entry of that key, and its expected sequence number is
`s + 1` (mod `2^32`). -/
theorem syn_creates_stream (ctx : tcpreasm_ctx_t) (buf : List Nat) (secs usecs : Nat)
    (seg : tcp_segment) (hdec : decode_headers buf = some seg)
    (hsyn : seg.tcp_flags &&& SYN ≠ 0) (hget : hashmapGet ctx.conntable seg.conn = none)
    (hpay : seg.offset = buf.length) :
    ∃ ctx1 handle st, tcpreasm_insert_packet ctx buf secs usecs = .ok (ctx1, handle) ∧
      ctx1.conntable = (seg.conn, st) :: ctx.conntable ∧
      hashmapGet ctx1.conntable seg.conn = some st ∧
      (ctx1.conntable.filter (fun e => decide (e.1 = seg.conn))).length = 1 ∧
      st.seqno = add32 seg.seqno 1 := by
  have hd : List.drop buf.length buf = [] := List.drop_length buf
  refine ⟨⟨(seg.conn, ⟨seg.conn, add32 seg.seqno 1, false, [],
      List.replicate ctx.sizeof_userdata 0⟩) :: ctx.conntable, ctx.sizeof_userdata,
      ctx.cleanup_userdata, (seg.conn, secs + 100, usecs) :: ctx.timeouts, ctx.cleaned⟩,
    ⟨some seg.conn, 0⟩,
    ⟨seg.conn, add32 seg.seqno 1, false, [], List.replicate ctx.sizeof_userdata 0⟩,
    ?_, ?_, ?_, ?_, rfl⟩
  · simp only [tcpreasm_insert_packet, hdec, hget, hsyn, if_false, _stream_new, hashmapPut,
      hashmapRemove_of_get_none _ _ hget, conntable_store, if_true,
      conntable_store_of_get_none _ _ _ hget, insert_append, hpay, hd, List.length_nil,
      Nat.zero_mod, tcp_append, tcp_append_end]
  · rfl
  · simp [hashmapGet]
  · simp [List.filter_cons, filter_key_of_get_none _ _ hget]


/-- An IPv4 SYN with sequence number 99 and no payload, offered to a table
that holds the stream of another connection, creates a stream expecting
100. -/
theorem syn_without_payload_creates_stream :
    decode_headers
        [69, 0, 0, 40, 0, 0, 0, 0, 64, 6, 0, 0, 10, 0, 0, 1, 10, 0, 0, 2,
         0, 53, 15, 160, 0, 0, 0, 99, 0, 0, 0, 0, 80, 2, 0, 0, 0, 0, 0, 0]
      = some ⟨⟨6, 4, 53, 4000, [10, 0, 0, 1, 0, 0, 0, 0, 0, 0, 0, 0, 0, 0, 0, 0],
                [10, 0, 0, 2, 0, 0, 0, 0, 0, 0, 0, 0, 0, 0, 0, 0]⟩, 99, 2, 40⟩ ∧
    ∃ ctx1 handle st,
      tcpreasm_insert_packet
          ⟨[(⟨6, 4, 53, 4001, [], []⟩, ⟨⟨6, 4, 53, 4001, [], []⟩, 500, true, [], []⟩)],
            0, false, [(⟨6, 4, 53, 4001, [], []⟩, 300, 0)], []⟩
          [69, 0, 0, 40, 0, 0, 0, 0, 64, 6, 0, 0, 10, 0, 0, 1, 10, 0, 0, 2,
           0, 53, 15, 160, 0, 0, 0, 99, 0, 0, 0, 0, 80, 2, 0, 0, 0, 0, 0, 0] 7 0
        = .ok (ctx1, handle) ∧
      ctx1.conntable
        = (⟨6, 4, 53, 4000, [10, 0, 0, 1, 0, 0, 0, 0, 0, 0, 0, 0, 0, 0, 0, 0],
              [10, 0, 0, 2, 0, 0, 0, 0, 0, 0, 0, 0, 0, 0, 0, 0]⟩, st) ::
          [(⟨6, 4, 53, 4001, [], []⟩, ⟨⟨6, 4, 53, 4001, [], []⟩, 500, true, [], []⟩)] ∧
      hashmapGet ctx1.conntable
          ⟨6, 4, 53, 4000, [10, 0, 0, 1, 0, 0, 0, 0, 0, 0, 0, 0, 0, 0, 0, 0],
              [10, 0, 0, 2, 0, 0, 0, 0, 0, 0, 0, 0, 0, 0, 0, 0]⟩ = some st ∧
      (ctx1.conntable.filter (fun e => decide (e.1 =
          ⟨6, 4, 53, 4000, [10, 0, 0, 1, 0, 0, 0, 0, 0, 0, 0, 0, 0, 0, 0, 0],
              [10, 0, 0, 2, 0, 0, 0, 0, 0, 0, 0, 0, 0, 0, 0, 0]⟩))).length = 1 ∧
      st.seqno = add32 99 1 :=
  ⟨rfl,
   syn_creates_stream
     ⟨[(⟨6, 4, 53, 4001, [], []⟩, ⟨⟨6, 4, 53, 4001, [], []⟩, 500, true, [], []⟩)],
       0, false, [(⟨6, 4, 53, 4001, [], []⟩, 300, 0)], []⟩
     [69, 0, 0, 40, 0, 0, 0, 0, 64, 6, 0, 0, 10, 0, 0, 1, 10, 0, 0, 2,
      0, 53, 15, 160, 0, 0, 0, 99, 0, 0, 0, 0, 80, 2, 0, 0, 0, 0, 0, 0] 7 0
     ⟨⟨6, 4, 53, 4000, [10, 0, 0, 1, 0, 0, 0, 0, 0, 0, 0, 0, 0, 0, 0, 0],
        [10, 0, 0, 2, 0, 0, 0, 0, 0, 0, 0, 0, 0, 0, 0, 0]⟩, 99, 2, 40⟩
     rfl (by decide) rfl rfl⟩

/-- Whatever the table holds, a segment with the RST flag for a key that has
a stream makes `tcpreasm_insert_packet` fault: the stream is deleted (or the
assertion of `_stream_delete` fails) and the freed stream is then used. -/
theorem insert_packet_rst_faults (ctx : tcpreasm_ctx_t) (buf : List Nat) (secs usecs : Nat)
    (seg : tcp_segment) (stream : tcpreasm_stream_t) (hdec : decode_headers buf = some seg)
    (hget : hashmapGet ctx.conntable seg.conn = some stream)
    (hrst : seg.tcp_flags &&& RST ≠ 0) :
    ∃ e, tcpreasm_insert_packet ctx buf secs usecs = .error e := by
  simp only [tcpreasm_insert_packet, hdec, hget, hrst, if_true, ne_eq, not_false_eq_true]
  cases _stream_delete ctx stream with
  | error e => exact ⟨e, rfl⟩
  | ok c => exact ⟨Fault.use_after_free, rfl⟩

/-- What `_stream_delete` does to the context when the table holds the stream
under its key: the key is looked up in vain afterwards, every other key finds
what it found before, and the hook, when configured, is called once, on the
user data of the deleted stream. -/
theorem stream_delete_effects (ctx : tcpreasm_ctx_t) (stream st : tcpreasm_stream_t)
    (hget : hashmapGet ctx.conntable stream.conn = some st) :
    ∃ ctx1, _stream_delete ctx stream = .ok ctx1 ∧
      hashmapGet ctx1.conntable stream.conn = none ∧
      (∀ k, k ≠ stream.conn → hashmapGet ctx1.conntable k = hashmapGet ctx.conntable k) ∧
      ctx1.cleaned = (if ctx.cleanup_userdata then st.userdata :: ctx.cleaned
                      else ctx.cleaned) := by
  refine ⟨⟨hashmapRemove ctx.conntable stream.conn, ctx.sizeof_userdata, ctx.cleanup_userdata,
      ctx.timeouts.filter (fun e => decide (e.1 ≠ stream.conn)),
      if ctx.cleanup_userdata then st.userdata :: ctx.cleaned else ctx.cleaned⟩,
    by simp only [_stream_delete, hget], ?_, ?_, rfl⟩
  · show hashmapGet (hashmapRemove ctx.conntable stream.conn) stream.conn = none
    generalize ctx.conntable = t
    induction t with
    | nil => rfl
    | cons e rest ih =>
      obtain ⟨k, v⟩ := e
      by_cases hk : k = stream.conn
      · have : hashmapRemove ((k, v) :: rest) stream.conn = hashmapRemove rest stream.conn := by
          show List.filter _ ((k, v) :: rest) = List.filter _ rest
          rw [List.filter_cons_of_neg (by simpa using hk)]
        rw [this]
        exact ih
      · have : hashmapRemove ((k, v) :: rest) stream.conn
            = (k, v) :: hashmapRemove rest stream.conn := by
          show List.filter _ ((k, v) :: rest) = (k, v) :: List.filter _ rest
          rw [List.filter_cons_of_pos (by simpa using hk)]
        rw [this]
        simp only [hashmapGet, if_neg hk]
        exact ih
  · intro key hkey
    show hashmapGet (hashmapRemove ctx.conntable stream.conn) key = hashmapGet ctx.conntable key
    generalize ctx.conntable = t
    induction t with
    | nil => rfl
    | cons e rest ih =>
      obtain ⟨k, v⟩ := e
      by_cases hk : k = stream.conn
      · have : hashmapRemove ((k, v) :: rest) stream.conn = hashmapRemove rest stream.conn := by
          show List.filter _ ((k, v) :: rest) = List.filter _ rest
          rw [List.filter_cons_of_neg (by simpa using hk)]
        rw [this, ih]
        have hne : ¬ (k = key) := fun h => hkey (h.symm.trans hk)
        simp only [hashmapGet, if_neg hne]
      · have : hashmapRemove ((k, v) :: rest) stream.conn
            = (k, v) :: hashmapRemove rest stream.conn := by
          show List.filter _ ((k, v) :: rest) = (k, v) :: List.filter _ rest
          rw [List.filter_cons_of_pos (by simpa using hk)]
        rw [this]
        by_cases hkk : k = key
        · simp only [hashmapGet, if_pos hkk]
        · simp only [hashmapGet, if_neg hkk]
          exact ih


/-- C13, failing input: the table holds the stream of port 4000 (one fragment,
user data `7, 7`) and the stream of port 4001, the hook is configured, and a
segment with the RST flag arrives for port 4000.  `_stream_delete` removes
the stream from the table and the timeout queue and calls the hook on `7, 7`;
the source then goes on to `tcp_append` with the stream it has freed, so the
call does not complete. -/
theorem rst_uses_freed_stream :
    decode_headers
        [69, 0, 0, 40, 0, 0, 0, 0, 64, 6, 0, 0, 10, 0, 0, 1, 10, 0, 0, 2,
         0, 53, 15, 160, 0, 0, 0, 102, 0, 0, 0, 0, 80, 4, 0, 0, 0, 0, 0, 0]
      = some ⟨⟨6, 4, 53, 4000, [10, 0, 0, 1, 0, 0, 0, 0, 0, 0, 0, 0, 0, 0, 0, 0],
          [10, 0, 0, 2, 0, 0, 0, 0, 0, 0, 0, 0, 0, 0, 0, 0]⟩, 102, 4, 40⟩ ∧
    _stream_delete
        ⟨[(⟨6, 4, 53, 4000, [10, 0, 0, 1, 0, 0, 0, 0, 0, 0, 0, 0, 0, 0, 0, 0],
          [10, 0, 0, 2, 0, 0, 0, 0, 0, 0, 0, 0, 0, 0, 0, 0]⟩, ⟨⟨6, 4, 53, 4000, [10, 0, 0, 1, 0, 0, 0, 0, 0, 0, 0, 0, 0, 0, 0, 0],
          [10, 0, 0, 2, 0, 0, 0, 0, 0, 0, 0, 0, 0, 0, 0, 0]⟩, 100, true, [⟨100, 2, [1, 2]⟩], [7, 7]⟩),
          (⟨6, 4, 53, 4001, [10, 0, 0, 1, 0, 0, 0, 0, 0, 0, 0, 0, 0, 0, 0, 0],
          [10, 0, 0, 2, 0, 0, 0, 0, 0, 0, 0, 0, 0, 0, 0, 0]⟩, ⟨⟨6, 4, 53, 4001, [10, 0, 0, 1, 0, 0, 0, 0, 0, 0, 0, 0, 0, 0, 0, 0],
          [10, 0, 0, 2, 0, 0, 0, 0, 0, 0, 0, 0, 0, 0, 0, 0]⟩, 500, true, [], [8, 8]⟩)],
        2, true,
        [(⟨6, 4, 53, 4000, [10, 0, 0, 1, 0, 0, 0, 0, 0, 0, 0, 0, 0, 0, 0, 0],
          [10, 0, 0, 2, 0, 0, 0, 0, 0, 0, 0, 0, 0, 0, 0, 0]⟩, 200, 0),
         (⟨6, 4, 53, 4001, [10, 0, 0, 1, 0, 0, 0, 0, 0, 0, 0, 0, 0, 0, 0, 0],
          [10, 0, 0, 2, 0, 0, 0, 0, 0, 0, 0, 0, 0, 0, 0, 0]⟩, 300, 0)], []⟩
        ⟨⟨6, 4, 53, 4000, [10, 0, 0, 1, 0, 0, 0, 0, 0, 0, 0, 0, 0, 0, 0, 0],
          [10, 0, 0, 2, 0, 0, 0, 0, 0, 0, 0, 0, 0, 0, 0, 0]⟩, 100, true, [⟨100, 2, [1, 2]⟩], [7, 7]⟩
      = .ok ⟨[(⟨6, 4, 53, 4001, [10, 0, 0, 1, 0, 0, 0, 0, 0, 0, 0, 0, 0, 0, 0, 0],
          [10, 0, 0, 2, 0, 0, 0, 0, 0, 0, 0, 0, 0, 0, 0, 0]⟩, ⟨⟨6, 4, 53, 4001, [10, 0, 0, 1, 0, 0, 0, 0, 0, 0, 0, 0, 0, 0, 0, 0],
          [10, 0, 0, 2, 0, 0, 0, 0, 0, 0, 0, 0, 0, 0, 0, 0]⟩, 500, true, [], [8, 8]⟩)],
        2, true,
        [(⟨6, 4, 53, 4001, [10, 0, 0, 1, 0, 0, 0, 0, 0, 0, 0, 0, 0, 0, 0, 0],
          [10, 0, 0, 2, 0, 0, 0, 0, 0, 0, 0, 0, 0, 0, 0, 0]⟩, 300, 0)], [[7, 7]]⟩ ∧
    tcpreasm_insert_packet
        ⟨[(⟨6, 4, 53, 4000, [10, 0, 0, 1, 0, 0, 0, 0, 0, 0, 0, 0, 0, 0, 0, 0],
          [10, 0, 0, 2, 0, 0, 0, 0, 0, 0, 0, 0, 0, 0, 0, 0]⟩, ⟨⟨6, 4, 53, 4000, [10, 0, 0, 1, 0, 0, 0, 0, 0, 0, 0, 0, 0, 0, 0, 0],
          [10, 0, 0, 2, 0, 0, 0, 0, 0, 0, 0, 0, 0, 0, 0, 0]⟩, 100, true, [⟨100, 2, [1, 2]⟩], [7, 7]⟩),
          (⟨6, 4, 53, 4001, [10, 0, 0, 1, 0, 0, 0, 0, 0, 0, 0, 0, 0, 0, 0, 0],
          [10, 0, 0, 2, 0, 0, 0, 0, 0, 0, 0, 0, 0, 0, 0, 0]⟩, ⟨⟨6, 4, 53, 4001, [10, 0, 0, 1, 0, 0, 0, 0, 0, 0, 0, 0, 0, 0, 0, 0],
          [10, 0, 0, 2, 0, 0, 0, 0, 0, 0, 0, 0, 0, 0, 0, 0]⟩, 500, true, [], [8, 8]⟩)],
        2, true,
        [(⟨6, 4, 53, 4000, [10, 0, 0, 1, 0, 0, 0, 0, 0, 0, 0, 0, 0, 0, 0, 0],
          [10, 0, 0, 2, 0, 0, 0, 0, 0, 0, 0, 0, 0, 0, 0, 0]⟩, 200, 0),
         (⟨6, 4, 53, 4001, [10, 0, 0, 1, 0, 0, 0, 0, 0, 0, 0, 0, 0, 0, 0, 0],
          [10, 0, 0, 2, 0, 0, 0, 0, 0, 0, 0, 0, 0, 0, 0, 0]⟩, 300, 0)], []⟩
        [69, 0, 0, 40, 0, 0, 0, 0, 64, 6, 0, 0, 10, 0, 0, 1, 10, 0, 0, 2,
         0, 53, 15, 160, 0, 0, 0, 102, 0, 0, 0, 0, 80, 4, 0, 0, 0, 0, 0, 0] 0 0
      = .error Fault.use_after_free :=
  ⟨rfl, rfl, rfl⟩

/-- Whatever the table holds, a segment with the FIN flag and without the RST
flag for a key whose stream has no fragment makes `tcpreasm_insert_packet`
fault, like a segment with the RST flag does. -/
theorem insert_packet_fin_drained_faults (ctx : tcpreasm_ctx_t) (buf : List Nat)
    (secs usecs : Nat) (seg : tcp_segment) (stream : tcpreasm_stream_t)
    (hdec : decode_headers buf = some seg)
    (hget : hashmapGet ctx.conntable seg.conn = some stream)
    (hrst : seg.tcp_flags &&& RST = 0) (hfin : seg.tcp_flags &&& FIN ≠ 0)
    (hfr : stream.fragments = []) :
    ∃ e, tcpreasm_insert_packet ctx buf secs usecs = .error e := by
  simp only [tcpreasm_insert_packet, hdec, hget, hrst, hfin, hfr, if_true, ne_eq,
    not_true_eq_false, not_false_eq_true, if_false]
  cases _stream_delete ctx stream with
  | error e => exact ⟨e, rfl⟩
  | ok c => exact ⟨Fault.use_after_free, rfl⟩

/-- C14, failing input: the table holds the stream of port 4000 with one
fragment and the stream of port 4001 without fragments.  A segment with the
flags FIN and ACK for port 4001 makes `_stream_delete` remove that stream,
after which the source goes on to `tcp_append` with the freed stream, so the
call does not complete.  The same segment for port 4000 leaves the table as
it was, the stream and its fragment included. -/
theorem fin_on_drained_stream_uses_freed_stream :
    decode_headers
        [69, 0, 0, 40, 0, 0, 0, 0, 64, 6, 0, 0, 10, 0, 0, 1, 10, 0, 0, 2,
         0, 53, 15, 161, 0, 0, 1, 244, 0, 0, 0, 0, 80, 17, 0, 0, 0, 0, 0, 0]
      = some ⟨⟨6, 4, 53, 4001, [10, 0, 0, 1, 0, 0, 0, 0, 0, 0, 0, 0, 0, 0, 0, 0],
          [10, 0, 0, 2, 0, 0, 0, 0, 0, 0, 0, 0, 0, 0, 0, 0]⟩, 500, 17, 40⟩ ∧
    _stream_delete
        ⟨[(⟨6, 4, 53, 4000, [10, 0, 0, 1, 0, 0, 0, 0, 0, 0, 0, 0, 0, 0, 0, 0],
          [10, 0, 0, 2, 0, 0, 0, 0, 0, 0, 0, 0, 0, 0, 0, 0]⟩, ⟨⟨6, 4, 53, 4000, [10, 0, 0, 1, 0, 0, 0, 0, 0, 0, 0, 0, 0, 0, 0, 0],
          [10, 0, 0, 2, 0, 0, 0, 0, 0, 0, 0, 0, 0, 0, 0, 0]⟩, 100, true, [⟨100, 2, [1, 2]⟩], [7, 7]⟩),
          (⟨6, 4, 53, 4001, [10, 0, 0, 1, 0, 0, 0, 0, 0, 0, 0, 0, 0, 0, 0, 0],
          [10, 0, 0, 2, 0, 0, 0, 0, 0, 0, 0, 0, 0, 0, 0, 0]⟩, ⟨⟨6, 4, 53, 4001, [10, 0, 0, 1, 0, 0, 0, 0, 0, 0, 0, 0, 0, 0, 0, 0],
          [10, 0, 0, 2, 0, 0, 0, 0, 0, 0, 0, 0, 0, 0, 0, 0]⟩, 500, true, [], [8, 8]⟩)],
        2, true,
        [(⟨6, 4, 53, 4000, [10, 0, 0, 1, 0, 0, 0, 0, 0, 0, 0, 0, 0, 0, 0, 0],
          [10, 0, 0, 2, 0, 0, 0, 0, 0, 0, 0, 0, 0, 0, 0, 0]⟩, 200, 0),
         (⟨6, 4, 53, 4001, [10, 0, 0, 1, 0, 0, 0, 0, 0, 0, 0, 0, 0, 0, 0, 0],
          [10, 0, 0, 2, 0, 0, 0, 0, 0, 0, 0, 0, 0, 0, 0, 0]⟩, 300, 0)], []⟩
        ⟨⟨6, 4, 53, 4001, [10, 0, 0, 1, 0, 0, 0, 0, 0, 0, 0, 0, 0, 0, 0, 0],
          [10, 0, 0, 2, 0, 0, 0, 0, 0, 0, 0, 0, 0, 0, 0, 0]⟩, 500, true, [], [8, 8]⟩
      = .ok ⟨[(⟨6, 4, 53, 4000, [10, 0, 0, 1, 0, 0, 0, 0, 0, 0, 0, 0, 0, 0, 0, 0],
          [10, 0, 0, 2, 0, 0, 0, 0, 0, 0, 0, 0, 0, 0, 0, 0]⟩, ⟨⟨6, 4, 53, 4000, [10, 0, 0, 1, 0, 0, 0, 0, 0, 0, 0, 0, 0, 0, 0, 0],
          [10, 0, 0, 2, 0, 0, 0, 0, 0, 0, 0, 0, 0, 0, 0, 0]⟩, 100, true, [⟨100, 2, [1, 2]⟩], [7, 7]⟩)],
        2, true,
        [(⟨6, 4, 53, 4000, [10, 0, 0, 1, 0, 0, 0, 0, 0, 0, 0, 0, 0, 0, 0, 0],
          [10, 0, 0, 2, 0, 0, 0, 0, 0, 0, 0, 0, 0, 0, 0, 0]⟩, 200, 0)], [[8, 8]]⟩ ∧
    tcpreasm_insert_packet
        ⟨[(⟨6, 4, 53, 4000, [10, 0, 0, 1, 0, 0, 0, 0, 0, 0, 0, 0, 0, 0, 0, 0],
          [10, 0, 0, 2, 0, 0, 0, 0, 0, 0, 0, 0, 0, 0, 0, 0]⟩, ⟨⟨6, 4, 53, 4000, [10, 0, 0, 1, 0, 0, 0, 0, 0, 0, 0, 0, 0, 0, 0, 0],
          [10, 0, 0, 2, 0, 0, 0, 0, 0, 0, 0, 0, 0, 0, 0, 0]⟩, 100, true, [⟨100, 2, [1, 2]⟩], [7, 7]⟩),
          (⟨6, 4, 53, 4001, [10, 0, 0, 1, 0, 0, 0, 0, 0, 0, 0, 0, 0, 0, 0, 0],
          [10, 0, 0, 2, 0, 0, 0, 0, 0, 0, 0, 0, 0, 0, 0, 0]⟩, ⟨⟨6, 4, 53, 4001, [10, 0, 0, 1, 0, 0, 0, 0, 0, 0, 0, 0, 0, 0, 0, 0],
          [10, 0, 0, 2, 0, 0, 0, 0, 0, 0, 0, 0, 0, 0, 0, 0]⟩, 500, true, [], [8, 8]⟩)],
        2, true,
        [(⟨6, 4, 53, 4000, [10, 0, 0, 1, 0, 0, 0, 0, 0, 0, 0, 0, 0, 0, 0, 0],
          [10, 0, 0, 2, 0, 0, 0, 0, 0, 0, 0, 0, 0, 0, 0, 0]⟩, 200, 0),
         (⟨6, 4, 53, 4001, [10, 0, 0, 1, 0, 0, 0, 0, 0, 0, 0, 0, 0, 0, 0, 0],
          [10, 0, 0, 2, 0, 0, 0, 0, 0, 0, 0, 0, 0, 0, 0, 0]⟩, 300, 0)], []⟩
        [69, 0, 0, 40, 0, 0, 0, 0, 64, 6, 0, 0, 10, 0, 0, 1, 10, 0, 0, 2,
         0, 53, 15, 161, 0, 0, 1, 244, 0, 0, 0, 0, 80, 17, 0, 0, 0, 0, 0, 0] 0 0
      = .error Fault.use_after_free ∧
    tcpreasm_insert_packet
        ⟨[(⟨6, 4, 53, 4000, [10, 0, 0, 1, 0, 0, 0, 0, 0, 0, 0, 0, 0, 0, 0, 0],
          [10, 0, 0, 2, 0, 0, 0, 0, 0, 0, 0, 0, 0, 0, 0, 0]⟩, ⟨⟨6, 4, 53, 4000, [10, 0, 0, 1, 0, 0, 0, 0, 0, 0, 0, 0, 0, 0, 0, 0],
          [10, 0, 0, 2, 0, 0, 0, 0, 0, 0, 0, 0, 0, 0, 0, 0]⟩, 100, true, [⟨100, 2, [1, 2]⟩], [7, 7]⟩),
          (⟨6, 4, 53, 4001, [10, 0, 0, 1, 0, 0, 0, 0, 0, 0, 0, 0, 0, 0, 0, 0],
          [10, 0, 0, 2, 0, 0, 0, 0, 0, 0, 0, 0, 0, 0, 0, 0]⟩, ⟨⟨6, 4, 53, 4001, [10, 0, 0, 1, 0, 0, 0, 0, 0, 0, 0, 0, 0, 0, 0, 0],
          [10, 0, 0, 2, 0, 0, 0, 0, 0, 0, 0, 0, 0, 0, 0, 0]⟩, 500, true, [], [8, 8]⟩)],
        2, true,
        [(⟨6, 4, 53, 4000, [10, 0, 0, 1, 0, 0, 0, 0, 0, 0, 0, 0, 0, 0, 0, 0],
          [10, 0, 0, 2, 0, 0, 0, 0, 0, 0, 0, 0, 0, 0, 0, 0]⟩, 200, 0),
         (⟨6, 4, 53, 4001, [10, 0, 0, 1, 0, 0, 0, 0, 0, 0, 0, 0, 0, 0, 0, 0],
          [10, 0, 0, 2, 0, 0, 0, 0, 0, 0, 0, 0, 0, 0, 0, 0]⟩, 300, 0)], []⟩
        [69, 0, 0, 40, 0, 0, 0, 0, 64, 6, 0, 0, 10, 0, 0, 1, 10, 0, 0, 2,
         0, 53, 15, 160, 0, 0, 0, 102, 0, 0, 0, 0, 80, 17, 0, 0, 0, 0, 0, 0] 0 0
      = .ok (⟨[(⟨6, 4, 53, 4000, [10, 0, 0, 1, 0, 0, 0, 0, 0, 0, 0, 0, 0, 0, 0, 0],
          [10, 0, 0, 2, 0, 0, 0, 0, 0, 0, 0, 0, 0, 0, 0, 0]⟩, ⟨⟨6, 4, 53, 4000, [10, 0, 0, 1, 0, 0, 0, 0, 0, 0, 0, 0, 0, 0, 0, 0],
          [10, 0, 0, 2, 0, 0, 0, 0, 0, 0, 0, 0, 0, 0, 0, 0]⟩, 100, true, [⟨100, 2, [1, 2]⟩], [7, 7]⟩),
          (⟨6, 4, 53, 4001, [10, 0, 0, 1, 0, 0, 0, 0, 0, 0, 0, 0, 0, 0, 0, 0],
          [10, 0, 0, 2, 0, 0, 0, 0, 0, 0, 0, 0, 0, 0, 0, 0]⟩, ⟨⟨6, 4, 53, 4001, [10, 0, 0, 1, 0, 0, 0, 0, 0, 0, 0, 0, 0, 0, 0, 0],
          [10, 0, 0, 2, 0, 0, 0, 0, 0, 0, 0, 0, 0, 0, 0, 0]⟩, 500, true, [], [8, 8]⟩)],
        2, true,
        [(⟨6, 4, 53, 4000, [10, 0, 0, 1, 0, 0, 0, 0, 0, 0, 0, 0, 0, 0, 0, 0],
          [10, 0, 0, 2, 0, 0, 0, 0, 0, 0, 0, 0, 0, 0, 0, 0]⟩, 200, 0),
         (⟨6, 4, 53, 4001, [10, 0, 0, 1, 0, 0, 0, 0, 0, 0, 0, 0, 0, 0, 0, 0],
          [10, 0, 0, 2, 0, 0, 0, 0, 0, 0, 0, 0, 0, 0, 0, 0]⟩, 300, 0)], []⟩,
        ⟨some ⟨6, 4, 53, 4000, [10, 0, 0, 1, 0, 0, 0, 0, 0, 0, 0, 0, 0, 0, 0, 0],
          [10, 0, 0, 2, 0, 0, 0, 0, 0, 0, 0, 0, 0, 0, 0, 0]⟩, 2⟩) :=
  ⟨rfl, rfl, rfl, rfl⟩

/-- C17, failing input: an IPv6 packet of 76 bytes with next-header 0
(hop-by-hop), one extension header with next-protocol byte 6 and length byte
`E = 1` (16 bytes) at offset 40, and behind it, at offset `40 + 8 + 8 * 1 = 56`,
a SYN from port 8080 to port 4000 with sequence number 99.  The loop moves
the offset by `8 + E` to 49, the TCP header is read from there (ports 0 and 0,
sequence number 31, no flag), and the SYN is dropped as a stray segment. -/
theorem ipv6_extension_header_offset :
    ipv6_ext_loop
        [96, 0, 0, 0, 0, 36, 0, 64,
         32, 1, 13, 184, 0, 0, 0, 0, 0, 0, 0, 0, 0, 0, 0, 1,
         32, 1, 13, 184, 0, 0, 0, 0, 0, 0, 0, 0, 0, 0, 0, 2,
         6, 1, 1, 12, 0, 0, 0, 0, 0, 0, 0, 0, 0, 0, 0, 0,
         31, 144, 15, 160, 0, 0, 0, 99, 0, 0, 0, 0, 80, 2, 255, 255, 0, 0, 0, 0] 76 76 0 40
      = some (6, 49) ∧
    40 + 8 + 8 * 1 = 56 ∧
    decode_headers
        [96, 0, 0, 0, 0, 36, 0, 64,
         32, 1, 13, 184, 0, 0, 0, 0, 0, 0, 0, 0, 0, 0, 0, 1,
         32, 1, 13, 184, 0, 0, 0, 0, 0, 0, 0, 0, 0, 0, 0, 2,
         6, 1, 1, 12, 0, 0, 0, 0, 0, 0, 0, 0, 0, 0, 0, 0,
         31, 144, 15, 160, 0, 0, 0, 99, 0, 0, 0, 0, 80, 2, 255, 255, 0, 0, 0, 0]
      = some ⟨⟨6, 6, 0, 0, [32, 1, 13, 184, 0, 0, 0, 0, 0, 0, 0, 0, 0, 0, 0, 1],
          [32, 1, 13, 184, 0, 0, 0, 0, 0, 0, 0, 0, 0, 0, 0, 2]⟩, 31, 0, 49⟩ ∧
    decode_tcp
        [96, 0, 0, 0, 0, 36, 0, 64,
         32, 1, 13, 184, 0, 0, 0, 0, 0, 0, 0, 0, 0, 0, 0, 1,
         32, 1, 13, 184, 0, 0, 0, 0, 0, 0, 0, 0, 0, 0, 0, 2,
         6, 1, 1, 12, 0, 0, 0, 0, 0, 0, 0, 0, 0, 0, 0, 0,
         31, 144, 15, 160, 0, 0, 0, 99, 0, 0, 0, 0, 80, 2, 255, 255, 0, 0, 0, 0] 6 6
        [32, 1, 13, 184, 0, 0, 0, 0, 0, 0, 0, 0, 0, 0, 0, 1]
        [32, 1, 13, 184, 0, 0, 0, 0, 0, 0, 0, 0, 0, 0, 0, 2] 56
      = some ⟨⟨6, 6, 8080, 4000, [32, 1, 13, 184, 0, 0, 0, 0, 0, 0, 0, 0, 0, 0, 0, 1],
          [32, 1, 13, 184, 0, 0, 0, 0, 0, 0, 0, 0, 0, 0, 0, 2]⟩, 99, 2, 76⟩ ∧
    tcpreasm_insert_packet ⟨[], 0, false, [], []⟩
        [96, 0, 0, 0, 0, 36, 0, 64,
         32, 1, 13, 184, 0, 0, 0, 0, 0, 0, 0, 0, 0, 0, 0, 1,
         32, 1, 13, 184, 0, 0, 0, 0, 0, 0, 0, 0, 0, 0, 0, 2,
         6, 1, 1, 12, 0, 0, 0, 0, 0, 0, 0, 0, 0, 0, 0, 0,
         31, 144, 15, 160, 0, 0, 0, 99, 0, 0, 0, 0, 80, 2, 255, 255, 0, 0, 0, 0] 0 0
      = .ok (⟨[], 0, false, [], []⟩, ⟨none, 0⟩) :=
  ⟨rfl, rfl, rfl, rfl, rfl⟩

/-- What `_frag_is_overlap` computes inside a window: with the fragment at
offset `x` and the range at offset `y` from a common base `w`, and both ends
plus one below `2^31`, it is true exactly when the range starts at most one
byte after the fragment's end and ends at most one byte before its start. -/
theorem frag_is_overlap_window (w x y L n : Nat) (buf : List Nat)
    (hx : x + L + 1 < 2147483648) (hy : y + n + 1 < 2147483648) :
    _frag_is_overlap ⟨add32 w x, L, buf⟩ (add32 w y) n
      = decide (x ≤ y + n + 1 ∧ y ≤ x + L + 1) := by
  by_cases h : x ≤ y + n + 1 ∧ y ≤ x + L + 1
  · rw [decide_eq_true h]
    simp only [_frag_is_overlap, SEQNO_LT, SEQNO_GT, SEQNO_GTE, SEQNO_LTE, add32, sub32]
    simp only [Bool.not_eq_true', decide_eq_false_iff_not, decide_eq_true_eq]
    split_ifs <;> first | rfl | omega
  · rw [decide_eq_false h]
    simp only [_frag_is_overlap, SEQNO_LT, SEQNO_GT, SEQNO_GTE, SEQNO_LTE, add32, sub32]
    simp only [Bool.not_eq_true', decide_eq_false_iff_not, decide_eq_true_eq]
    split_ifs <;> first | rfl | omega

/-- C19, failing inputs: for the fragment `[100, 110)` the range `[111, 116)`,
which leaves the byte 110 missing, and the range `[94, 99)`, which leaves the
byte 99 missing, share no sequence number with the fragment and are not
adjacent to it, and `_frag_is_overlap` is true for both.  (It is true for the
adjacent range `[110, 115)` and false for `[112, 117)` and `[93, 98)`, two
bytes away.) -/
theorem overlap_test_accepts_gap_of_one :
    (overlap_or_adjacent 100 10 111 5 = false ∧
     _frag_is_overlap ⟨100, 10, [1, 1, 1, 1, 1, 1, 1, 1, 1, 1]⟩ 111 5 = true) ∧
    (overlap_or_adjacent 100 10 94 5 = false ∧
     _frag_is_overlap ⟨100, 10, [1, 1, 1, 1, 1, 1, 1, 1, 1, 1]⟩ 94 5 = true) ∧
    (overlap_or_adjacent 100 10 110 5 = true ∧
     _frag_is_overlap ⟨100, 10, [1, 1, 1, 1, 1, 1, 1, 1, 1, 1]⟩ 110 5 = true) ∧
    (overlap_or_adjacent 100 10 112 5 = false ∧
     _frag_is_overlap ⟨100, 10, [1, 1, 1, 1, 1, 1, 1, 1, 1, 1]⟩ 112 5 = false) ∧
    (overlap_or_adjacent 100 10 93 5 = false ∧
     _frag_is_overlap ⟨100, 10, [1, 1, 1, 1, 1, 1, 1, 1, 1, 1]⟩ 93 5 = false) :=
  ⟨⟨rfl, rfl⟩, ⟨rfl, rfl⟩, ⟨rfl, rfl⟩, ⟨rfl, rfl⟩, ⟨rfl, rfl⟩⟩

/-- C20, failing input: the fragment `[100, 105)` holds `1, 2, 3, 4, 5` and the
range `[90, 102)` of 12 bytes extends before its start
(`90 < 100 ≤ 102 ≤ 105`).  The claim has the merge give start 90, length 15
and the 12 new bytes followed by `3, 4, 5`; the source reallocates the block
to `L + diff = 5 + 3 = 8` bytes and then moves the 3 old bytes to offset 12,
outside the block.  A range no longer than the fragment, `[97, 102)`, and a
range that extends past the end, `[103, 108)`, are merged as the claim
says. -/
theorem merge_before_start_overruns_block :
    sub32 5 (sub32 (add32 90 12) 100) = 3 ∧
    (realloc [1, 2, 3, 4, 5] (5 + 3)).length = 8 ∧
    _frag_merge ⟨100, 5, [1, 2, 3, 4, 5]⟩ 90
        [21, 22, 23, 24, 25, 26, 27, 28, 29, 30, 31, 32] 12
      = .error Fault.out_of_bounds ∧
    _frag_merge ⟨100, 5, [1, 2, 3, 4, 5]⟩ 97 [21, 22, 23, 24, 25] 5
      = .ok ⟨97, 8, [21, 22, 23, 24, 25, 3, 4, 5]⟩ ∧
    _frag_merge ⟨100, 5, [1, 2, 3, 4, 5]⟩ 103 [21, 22, 23, 24, 25] 5
      = .ok ⟨100, 8, [1, 2, 3, 4, 5, 23, 24, 25]⟩ :=
  ⟨rfl, rfl, rfl, rfl, rfl⟩


/-- The first `L` bytes of a block survive a `realloc` to at least `L` bytes. -/
theorem take_realloc (mem : List Nat) (L m : Nat) (hL : L ≤ mem.length) (hm : L ≤ m) :
    (realloc mem m).take L = mem.take L := by
  unfold realloc
  rw [List.take_append_of_le_length (by rw [List.length_take]; omega), List.take_take,
    Nat.min_eq_left hm]

/-- A range that starts inside or right behind the fragment and ends past its
end (`f < s ≤ f + L < s + n`, with `s = f + i`) is merged by appending the
bytes the fragment does not have yet. -/
theorem frag_merge_extends_right (F : fragment) (i : Nat) (N : List Nat)
    (hcap : F.length ≤ F.buf.length) (hi : 1 ≤ i) (hiL : i ≤ F.length)
    (hn : F.length < i + N.length) (hw : i + N.length < 2147483648) :
    _frag_merge F (add32 F.seqno i) N N.length
      = .ok ⟨F.seqno, i + N.length, F.bytes ++ N.drop (F.length - i)⟩ := by
  have h1 : frag_merge_assert F (add32 F.seqno i) N.length = true := by
    simp only [frag_merge_assert, IS_BETWEEN, SEQNO_GTE, SEQNO_LTE, add32, sub32,
      Bool.or_eq_true, Bool.and_eq_true, decide_eq_true_eq]
    left; omega
  have h2 : SEQNO_LT F.seqno (add32 F.seqno i) = true := by
    simp only [SEQNO_LT, SEQNO_GTE, add32, sub32, Bool.not_eq_true', decide_eq_false_iff_not]
    omega
  have h3 : sub32 (add32 F.seqno F.length) (add32 F.seqno i) = F.length - i := by
    simp only [add32, sub32]; omega
  have h4 : sub32 N.length (F.length - i) = N.length - (F.length - i) := by
    simp only [sub32]; omega
  have h5 : add32 F.length (N.length - (F.length - i)) = i + N.length := by
    simp only [add32]; omega
  have h6 : ¬ (F.length - i ≥ N.length) := by omega
  have hlen : (realloc F.buf (F.length + (N.length - (F.length - i)))).length
      = F.length + (N.length - (F.length - i)) := realloc_length _ _
  have hcpy : memcpy (realloc F.buf (F.length + (N.length - (F.length - i)))) F.length
      (N.drop (F.length - i)) (N.length - (F.length - i))
      = .ok (F.bytes ++ N.drop (F.length - i)) := by
    have e1 : (realloc F.buf (F.length + (N.length - (F.length - i)))).take F.length
        = F.buf.take F.length := take_realloc _ _ _ hcap (by omega)
    have e2 : (N.drop (F.length - i)).take (N.length - (F.length - i)) = N.drop (F.length - i) :=
      List.take_of_length_le (by rw [List.length_drop])
    have e3 : (realloc F.buf (F.length + (N.length - (F.length - i)))).drop
        (F.length + (N.length - (F.length - i))) = [] :=
      List.drop_of_length_le (by rw [hlen])
    unfold memcpy
    rw [if_pos ⟨by rw [hlen], by rw [List.length_drop]⟩, e1, e2, e3, List.append_nil]
    rfl
  simp only [_frag_merge, h1, h2, h3, h4, h5, h6, hcpy, if_true, if_false, Bool.true_eq_false]

/-- A range that starts before the fragment and ends inside it or at its end
(`s < f ≤ s + n ≤ f + L`, with `f = s + j`), and that is not longer than the
fragment unless it ends exactly at its end, is merged by putting the new bytes
in front of the old bytes it does not cover. -/
theorem frag_merge_extends_left (F : fragment) (s j : Nat) (N : List Nat)
    (hf : F.seqno = add32 s j) (hcap : F.length ≤ F.buf.length)
    (hj : 1 ≤ j) (hjn : j ≤ N.length) (hn : N.length ≤ j + F.length)
    (hw : j + F.length < 2147483648)
    (hfit : N.length ≤ F.length ∨ N.length = j + F.length) :
    ∃ F1, _frag_merge F s N N.length = .ok F1 ∧ F1.seqno = s ∧
      F1.length = j + F.length ∧ F1.bytes = N ++ F.bytes.drop (N.length - j) := by
  have h1 : frag_merge_assert F s N.length = true := by
    simp only [frag_merge_assert, IS_BETWEEN, SEQNO_GTE, SEQNO_LTE, add32, sub32, hf,
      Bool.or_eq_true, Bool.and_eq_true, decide_eq_true_eq]
    right; omega
  have h2 : SEQNO_LT F.seqno s = false := by
    simp only [SEQNO_LT, SEQNO_GTE, add32, sub32, hf, Bool.not_eq_false', decide_eq_true_eq]
    omega
  have h3 : sub32 (add32 s N.length) F.seqno = N.length - j := by
    simp only [add32, sub32, hf]; omega
  by_cases hall : N.length = j + F.length
  · have h4 : N.length - j ≥ F.length := by omega
    obtain ⟨r, hr, hrl⟩ : ∃ r, memcpy (realloc F.buf N.length) 0 N N.length = .ok r ∧ r = N := by
      refine ⟨N, ?_, rfl⟩
      unfold memcpy
      rw [if_pos ⟨by rw [realloc_length]; omega, Nat.le_refl _⟩, List.take_zero,
        List.take_of_length_le (Nat.le_refl _),
        List.drop_of_length_le (by rw [realloc_length]; omega)]
      simp
    refine ⟨⟨s, N.length, N⟩, ?_, rfl, hall, ?_⟩
    · simp only [_frag_merge, h1, h2, h3, h4, hr, hrl, if_true, if_false, Bool.true_eq_false,
        Bool.false_eq_true]
    · have hd : F.bytes.drop (N.length - j) = [] :=
        List.drop_of_length_le (by unfold fragment.bytes; rw [List.length_take]; omega)
      rw [hd, List.append_nil]
      exact List.take_of_length_le (Nat.le_refl _)
  · have hnL : N.length ≤ F.length := by omega
    have h4 : ¬ (N.length - j ≥ F.length) := by omega
    have h5 : sub32 F.length (N.length - j) = F.length - (N.length - j) := by
      simp only [sub32]; omega
    have h6 : add32 N.length (F.length - (N.length - j)) = j + F.length := by
      simp only [add32]; omega
    have hlen : (realloc F.buf (F.length + (F.length - (N.length - j)))).length
        = F.length + (F.length - (N.length - j)) := realloc_length _ _
    have hsrc : ((realloc F.buf (F.length + (F.length - (N.length - j)))).drop
        (N.length - j)).take (F.length - (N.length - j)) = F.bytes.drop (N.length - j) := by
      rw [List.take_drop, show N.length - j + (F.length - (N.length - j)) = F.length by omega,
        take_realloc _ _ _ hcap (by omega)]
      rfl
    have hmv : memmove (realloc F.buf (F.length + (F.length - (N.length - j)))) N.length
        (N.length - j) (F.length - (N.length - j))
        = .ok ((realloc F.buf (F.length + (F.length - (N.length - j)))).take N.length
            ++ F.bytes.drop (N.length - j)
            ++ (realloc F.buf (F.length + (F.length - (N.length - j)))).drop
                 (N.length + (F.length - (N.length - j)))) := by
      unfold memmove memcpy
      rw [if_pos ⟨by rw [hlen]; omega, by rw [List.length_drop, hlen]; omega⟩, hsrc]
    have htk : ((realloc F.buf (F.length + (F.length - (N.length - j)))).take N.length).length
        = N.length := by
      rw [List.length_take, hlen]; omega
    have hcp : ∀ tail : List Nat,
        memcpy ((realloc F.buf (F.length + (F.length - (N.length - j)))).take N.length
            ++ F.bytes.drop (N.length - j) ++ tail) 0 N N.length
          = .ok (N ++ (F.bytes.drop (N.length - j) ++ tail)) := by
      intro tail
      have e4 : List.drop (0 + N.length)
          ((realloc F.buf (F.length + (F.length - (N.length - j)))).take N.length
            ++ F.bytes.drop (N.length - j) ++ tail)
          = F.bytes.drop (N.length - j) ++ tail := by
        rw [Nat.zero_add, List.append_assoc]
        exact List.drop_left' htk
      have e5 : N.take N.length = N := List.take_of_length_le (Nat.le_refl _)
      unfold memcpy
      rw [if_pos ⟨by simp only [List.length_append, htk]; omega, Nat.le_refl _⟩, e4, e5,
        List.take_zero, List.nil_append]
    refine ⟨⟨s, j + F.length, N ++ (F.bytes.drop (N.length - j)
      ++ (realloc F.buf (F.length + (F.length - (N.length - j)))).drop
           (N.length + (F.length - (N.length - j))))⟩, ?_, rfl, rfl, ?_⟩
    · simp only [_frag_merge, h1, h2, h3, h4, h5, h6, hmv, hcp, if_true, if_false,
        Bool.true_eq_false, Bool.false_eq_true]
    · show List.take (j + F.length) _ = _
      rw [← List.append_assoc]
      exact List.take_left' (by
        simp only [List.length_append, List.length_drop, fragment.bytes, List.length_take]
        omega)

/-- A segment with the FIN flag, without the RST flag and without payload,
for a key whose stream holds fragments leaves the stream in the table as it
is. -/
theorem fin_keeps_buffered_stream (ctx : tcpreasm_ctx_t) (buf : List Nat) (secs usecs : Nat)
    (seg : tcp_segment) (stream : tcpreasm_stream_t) (hdec : decode_headers buf = some seg)
    (hget : hashmapGet ctx.conntable seg.conn = some stream) (hconn : stream.conn = seg.conn)
    (hrst : seg.tcp_flags &&& RST = 0) (hfin : seg.tcp_flags &&& FIN ≠ 0)
    (hfr : stream.fragments ≠ []) (hpay : seg.offset = buf.length) :
    ∃ ctx1 handle, tcpreasm_insert_packet ctx buf secs usecs = .ok (ctx1, handle) ∧
      hashmapGet ctx1.conntable seg.conn = some stream := by
  have hd : List.drop buf.length buf = [] := List.drop_length buf
  refine ⟨⟨conntable_store ctx.conntable seg.conn stream, ctx.sizeof_userdata,
      ctx.cleanup_userdata, ctx.timeouts, ctx.cleaned⟩,
    ⟨some seg.conn, tcp_append_end stream⟩, ?_,
    hashmapGet_conntable_store _ _ _ _ hget⟩
  simp only [tcpreasm_insert_packet, hdec, hget, hrst, hfin, hfr, insert_append, hpay, hd,
    List.length_nil, Nat.zero_mod, tcp_append, hconn, if_true, if_false, ne_eq,
    not_true_eq_false, not_false_eq_true]


/-! ## Insert without overlap, and the sequence relations as an order -/

/-- Inside a window below `2^31 - 1`, for a fragment the range does not
overlap, the loop's test `_frag_is_after` says whether the fragment starts
after the end of the range. -/
theorem frag_is_after_of_no_overlap (f : fragment) (w s n : Nat)
    (hwf : sub32 f.seqno w + f.length + 1 < 2147483648)
    (hws : sub32 s w + n + 1 < 2147483648)
    (hno : _frag_is_overlap f s n = false) :
    _frag_is_after f s n = starts_after_range f s n := by
  have h : _frag_is_after f s n = true ↔ starts_after_range f s n = true := by
    simp only [_frag_is_overlap, _frag_is_after, starts_after_range, SEQNO_LT, SEQNO_GT,
      SEQNO_GTE, SEQNO_LTE, add32, sub32, Bool.not_eq_true', decide_eq_false_iff_not,
      decide_eq_true_eq] at hno hwf hws ⊢
    split_ifs at hno <;> first | (exact absurd hno (by decide)) | omega
  cases h1 : _frag_is_after f s n <;> cases h2 : starts_after_range f s n <;> simp_all


/-- The loop of `tcp_append` on a list no fragment of which the range overlaps:
the list is cut in front of the first fragment that starts after the end of
the range, and the new fragment is put into the cut. -/
theorem tcp_append_loop_no_overlap (w s : Nat) (N : List Nat) (hN : N.length ≠ 0)
    (hws : sub32 s w + N.length + 1 < 2147483648) :
    ∀ fs : List fragment,
      (∀ f ∈ fs, sub32 f.seqno w + f.length + 1 < 2147483648) →
      (∀ f ∈ fs, _frag_is_overlap f s N.length = false) →
      ∃ pre post, fs = pre ++ post ∧
        tcp_append_loop s N N.length fs = .ok (pre ++ ⟨s, N.length, N⟩ :: post) ∧
        (∀ f ∈ pre, starts_after_range f s N.length = false) ∧
        (∀ g, post.head? = some g → starts_after_range g s N.length = true) := by
  intro fs
  induction fs with
  | nil =>
    intro _ _
    refine ⟨[], [], rfl, ?_, ?_, ?_⟩
    · simp [tcp_append_loop, hN, fragment_new_ok]
    · intro f hf; cases hf
    · intro g hg; cases hg
  | cons f rest ih =>
    intro hwin hno
    have hnof := hno f (List.mem_cons_self _ _)
    have haf := frag_is_after_of_no_overlap f w s N.length
      (hwin f (List.mem_cons_self _ _)) hws hnof
    cases hafter : starts_after_range f s N.length
    · obtain ⟨pre, post, hsplit, hloop, hpre, hpost⟩ :=
        ih (fun g hg => hwin g (List.mem_cons_of_mem _ hg))
          (fun g hg => hno g (List.mem_cons_of_mem _ hg))
      refine ⟨f :: pre, post, by rw [hsplit]; rfl, ?_, ?_, hpost⟩
      · rw [hafter] at haf
        simp [tcp_append_loop, hnof, haf, hloop]
      · intro g hg
        rcases List.mem_cons.mp hg with rfl | hg
        · exact hafter
        · exact hpre g hg
    · refine ⟨[], f :: rest, rfl, ?_, ?_, ?_⟩
      · rw [hafter] at haf
        simp [tcp_append_loop, hnof, haf, hN, fragment_new_ok]
      · intro g hg; cases hg
      · intro g hg
        simp only [List.head?_cons, Option.some.injEq] at hg
        rw [← hg]
        exact hafter

/-- Putting the new fragment into the cut keeps a sorted list sorted. -/
theorem insert_keeps_sorted (w s n : Nat) (buf : List Nat) (pre post : List fragment)
    (hws : sub32 s w + n + 1 < 2147483648)
    (hwin : ∀ f ∈ pre ++ post, sub32 f.seqno w + f.length + 1 < 2147483648)
    (hno : ∀ f ∈ pre ++ post, _frag_is_overlap f s n = false)
    (hpre : ∀ f ∈ pre, starts_after_range f s n = false)
    (hpost : ∀ g, post.head? = some g → starts_after_range g s n = true)
    (hsorted : frags_sorted_by_start (pre ++ post)) :
    frags_sorted_by_start (pre ++ ⟨s, n, buf⟩ :: post) := by
  unfold frags_sorted_by_start at hsorted ⊢
  rw [List.pairwise_append] at hsorted ⊢
  obtain ⟨h1, h2, h3⟩ := hsorted
  have hbefore : ∀ p ∈ pre, SEQNO_LT p.seqno s = true := by
    intro p hp
    have hw := hwin p (List.mem_append_left _ hp)
    have ho := hno p (List.mem_append_left _ hp)
    have ha := hpre p hp
    have hws1 := hws
    simp only [_frag_is_overlap, starts_after_range, SEQNO_LT, SEQNO_GT, SEQNO_GTE, SEQNO_LTE,
      add32, sub32, Bool.not_eq_true', Bool.not_eq_false', decide_eq_false_iff_not,
      decide_eq_true_eq] at hw ho ha hws1 ⊢
    split_ifs at ho <;> first | (exact absurd ho (by decide)) | omega
  have hbehind : ∀ g ∈ post, SEQNO_LT s g.seqno = true := by
    intro g hg
    cases post with
    | nil => cases hg
    | cons g0 rest =>
      have ha := hpost g0 rfl
      have hw0 := hwin g0 (List.mem_append_right _ (List.mem_cons_self _ _))
      rcases List.mem_cons.mp hg with rfl | hg
      · have hws1 := hws
        simp only [starts_after_range, SEQNO_LT, SEQNO_GT, SEQNO_GTE, SEQNO_LTE, add32, sub32,
          Bool.not_eq_true', decide_eq_false_iff_not] at ha hw0 hws1 ⊢
        omega
      · have hw := hwin g (List.mem_append_right _ (List.mem_cons_of_mem _ hg))
        have hlt := (List.pairwise_cons.mp h2).1 g hg
        have hws1 := hws
        simp only [starts_after_range, SEQNO_LT, SEQNO_GT, SEQNO_GTE, SEQNO_LTE, add32, sub32,
          Bool.not_eq_true', decide_eq_false_iff_not] at ha hw0 hw hlt hws1 ⊢
        omega
  refine ⟨h1, List.pairwise_cons.mpr ⟨hbehind, h2⟩, ?_⟩
  intro a ha b hb
  rcases List.mem_cons.mp hb with rfl | hb
  · exact hbefore a ha
  · exact h3 a ha b hb


/-- C21, counterexample: the stream holds the single fragment `[0, 10)` and the
one-byte range `[2^31 - 2, 2^31 - 1)` arrives; everything lies in a window of
`2^31 - 1`, and `_frag_is_overlap` is false.  No old fragment starts after the
end of the range, so the claim puts the new fragment at the tail; the source
compares at distance `2^31`, takes the old fragment for one that starts after
the range and puts the new fragment in front of it. -/
theorem insert_window_edge_counterexample :
    _frag_is_overlap ⟨0, 10, [1, 1, 1, 1, 1, 1, 1, 1, 1, 1]⟩ 2147483646 1 = false ∧
    starts_after_range ⟨0, 10, [1, 1, 1, 1, 1, 1, 1, 1, 1, 1]⟩ 2147483646 1 = false ∧
    tcp_append ⟨⟨6, 4, 53, 4000, [], []⟩, 0, true,
        [⟨0, 10, [1, 1, 1, 1, 1, 1, 1, 1, 1, 1]⟩], []⟩ 2147483646 [7] 1
      = .ok (⟨⟨6, 4, 53, 4000, [], []⟩, 0, true,
              [⟨2147483646, 1, [7]⟩, ⟨0, 10, [1, 1, 1, 1, 1, 1, 1, 1, 1, 1]⟩], []⟩, 0) :=
  ⟨rfl, rfl, rfl⟩

/-- C21, amended (non-overlapping insert keeps the list sorted and untouched):
for every stream whose non-empty fragment list is sorted by start, with all
ranges inside a window smaller than `2^31 - 1` (base `w`), and every non-empty
incoming range in that window for which `_frag_is_overlap` is false for every
fragment of the list, `tcp_append` returns, and the list is the old list cut
in two with the new fragment, holding exactly the incoming sequence number
and bytes, in the cut: no old fragment in front of it starts after the end of
the range, the old fragment behind it, if there is one, does, and the list is
sorted by start again. -/
theorem non_overlapping_insert (st : tcpreasm_stream_t) (w s : Nat) (N : List Nat)
    (hne : st.fragments ≠ []) (hN : N ≠ [])
    (hwin : ∀ f ∈ st.fragments, sub32 f.seqno w + f.length + 1 < 2147483648)
    (hws : sub32 s w + N.length + 1 < 2147483648)
    (hsorted : frags_sorted_by_start st.fragments)
    (hno : ∀ f ∈ st.fragments, _frag_is_overlap f s N.length = false) :
    ∃ st1 n pre post, tcp_append st s N N.length = .ok (st1, n) ∧
      st.fragments = pre ++ post ∧
      st1.fragments = pre ++ ⟨s, N.length, N⟩ :: post ∧
      (∀ f ∈ pre, starts_after_range f s N.length = false) ∧
      (∀ g, post.head? = some g → starts_after_range g s N.length = true) ∧
      frags_sorted_by_start st1.fragments := by
  have hN0 : N.length ≠ 0 := fun h => hN (List.length_eq_zero.mp h)
  obtain ⟨pre, post, hsplit, hloop, hpre, hpost⟩ :=
    tcp_append_loop_no_overlap w s N hN0 hws st.fragments hwin hno
  have hs := insert_keeps_sorted w s N.length N pre post hws
    (by rw [← hsplit]; exact hwin) (by rw [← hsplit]; exact hno) hpre hpost
    (by rw [← hsplit]; exact hsorted)
  cases hfr : st.fragments with
  | nil => exact absurd hfr hne
  | cons f next =>
    rw [hfr] at hloop
    exact ⟨_, _, pre, post, tcp_append_of_loop st s N N.length f next _ hN0 hfr hloop,
      by rw [← hfr]; exact hsplit, rfl, hpre, hpost, hs⟩

/-- C21, witness: the fragments `[2^32 - 20, 2^32 - 10)` and `[30, 40)` (the
window starts at `2^32 - 20` and wraps) and the range `[10, 15)`, which goes
between them. -/
theorem non_overlapping_insert_witness :
    ∃ st1 n pre post,
      tcp_append ⟨⟨6, 4, 53, 4000, [], []⟩, 4294967276, true,
          [⟨4294967276, 10, [1, 1, 1, 1, 1, 1, 1, 1, 1, 1]⟩,
           ⟨30, 10, [2, 2, 2, 2, 2, 2, 2, 2, 2, 2]⟩], []⟩ 10 [3, 3, 3, 3, 3]
          [3, 3, 3, 3, 3].length = .ok (st1, n) ∧
      [⟨4294967276, 10, [1, 1, 1, 1, 1, 1, 1, 1, 1, 1]⟩,
       (⟨30, 10, [2, 2, 2, 2, 2, 2, 2, 2, 2, 2]⟩ : fragment)] = pre ++ post ∧
      st1.fragments = pre ++ ⟨10, [3, 3, 3, 3, 3].length, [3, 3, 3, 3, 3]⟩ :: post ∧
      (∀ f ∈ pre, starts_after_range f 10 [3, 3, 3, 3, 3].length = false) ∧
      (∀ g, post.head? = some g → starts_after_range g 10 [3, 3, 3, 3, 3].length = true) ∧
      frags_sorted_by_start st1.fragments :=
  non_overlapping_insert
    ⟨⟨6, 4, 53, 4000, [], []⟩, 4294967276, true,
      [⟨4294967276, 10, [1, 1, 1, 1, 1, 1, 1, 1, 1, 1]⟩,
       ⟨30, 10, [2, 2, 2, 2, 2, 2, 2, 2, 2, 2]⟩], []⟩
    4294967276 10 [3, 3, 3, 3, 3] (by decide) (by decide)
    (by decide) (by decide) (by unfold frags_sorted_by_start; decide) (by decide)

end TcpReasm
